import Mathlib

/-!
# go-test-html-report

A shallow embedding of `main.go`: the two log readers, the aggregator
`ProcessTestData` and the renderer `GenerateHTMLReport`, followed by the
properties of the specification that were checked against them.

Conventions of the embedding.

* Go strings are Lean strings.  Every string of the program comes out of
  `encoding/json`, which yields valid UTF-8, so searching, splitting and
  trimming on characters agrees with Go's byte-level functions; `len` is the
  UTF-8 byte size.
* `float64` is modelled by finite binary values `m * 2 ^ e` with IEEE-754
  round-to-nearest-even after every operation.  Infinities, NaN and the sign
  of zero are not modelled: the program only divides by non-zero constants
  and never leaves the finite range.
* `time.Time` is the instant in nanoseconds, `time.Duration` a saturated
  signed 64-bit number of nanoseconds.
* A Go `map[string]V` is an association list with unique keys; `range`
  visits it in list order, one of the orders Go may choose.
* The package-level variables `packageName`, `packages` and `OS` are threaded
  explicitly as `Globals`.
* A run-time panic or `os.Exit(1)` is a value of `Failure`.
* Library calls whose result is not computed here (`json.Unmarshal`,
  `html/template`, `assets.Asset`, `ioutil.WriteFile`, `Time.Format`) are
  fields of `Env`.
-/

namespace GoTestHtmlReport

/-! ## Failures -/

/-- Ways in which the program stops without a result. -/
inductive Failure where
  /-- run-time panic: index out of range -/
  | indexOutOfRange
  /-- `error opening file` -/
  | openFile
  /-- `error closing file` -/
  | closeFile
  /-- `error to unmarshall test logs` -/
  | unmarshal
  /-- `error with file scanner` / `error with stdin scanner` -/
  | scanner
  /-- `Test run failed, Exiting..` -/
  | testRunFailed
  /-- `error retrieving report-template.html` -/
  | assetMissing
  /-- `error parsing report-template.html` -/
  | reportParse
  /-- `error applying report-template.html` -/
  | reportExecute
  /-- `error writing report.html file` -/
  | writeFile
deriving DecidableEq

/-- Slice indexing `xs[i]` with Go's bounds check. -/
def index {α : Type} (xs : List α) (i : Int) : Except Failure α :=
  if i < 0 then .error .indexOutOfRange
  else
    match xs[i.toNat]? with
    | some x => .ok x
    | none => .error .indexOutOfRange

/-! ## Strings -/

/-- Go's `unicode.IsSpace`. -/
def isSpace (c : Char) : Bool :=
  let n := c.toNat
  (9 ≤ n && n ≤ 13) || n == 32 || n == 133 || n == 160 || n == 5760 ||
    (8192 ≤ n && n ≤ 8202) || n == 8232 || n == 8233 || n == 8239 || n == 8287 || n == 12288

/-- Go's `strings.TrimSpace`. -/
def TrimSpace (s : String) : String :=
  ⟨((s.data.dropWhile isSpace).reverse.dropWhile isSpace).reverse⟩

/-- Whether `sub` occurs at the head of `s`. -/
def matchesAt : List Char → List Char → Bool
  | [], _ => true
  | _ :: _, [] => false
  | a :: sub, c :: s => a == c && matchesAt sub s

/-- Whether `sub` occurs somewhere in `s`. -/
def occursIn (sub : List Char) : List Char → Bool
  | [] => matchesAt sub []
  | c :: s => matchesAt sub (c :: s) || occursIn sub s

/-- Go's `strings.Contains`. -/
def Contains (s substr : String) : Bool := occursIn substr.data s.data

/-- Scan for the last occurrence of `sub`; `i` is the byte offset of the
current position and `best` the last offset found so far. -/
def lastIndexFrom (sub : List Char) : List Char → Int → Int → Int
  | [], i, best => if matchesAt sub [] then i else best
  | c :: s, i, best =>
    lastIndexFrom sub s (i + (c.utf8Size : Int)) (if matchesAt sub (c :: s) then i else best)

/-- Go's `strings.LastIndex`: byte offset of the last occurrence, or `-1`. -/
def LastIndex (s substr : String) : Int := lastIndexFrom substr.data s.data 0 (-1)

/-- The characters that fit in the first `n` bytes. -/
def takeBytes : List Char → Nat → List Char
  | [], _ => []
  | c :: s, n => if c.utf8Size ≤ n then c :: takeBytes s (n - c.utf8Size) else []

/-- The Go slice expression `s[:n]`, for an offset `n` on a character boundary
inside `s`. -/
def sliceTo (s : String) (n : Int) : String := ⟨takeBytes s.data n.toNat⟩

/-- Splitting around a non-empty separator: `skip` counts the characters of a
separator still to be dropped, `cur` is the current piece, reversed. -/
def splitFrom (sep : List Char) : List Char → Nat → List Char → List String
  | [], _, cur => [⟨cur.reverse⟩]
  | _ :: s, skip + 1, cur => splitFrom sep s skip cur
  | c :: s, 0, cur =>
    if matchesAt sep (c :: s) then ⟨cur.reverse⟩ :: splitFrom sep s (sep.length - 1) []
    else splitFrom sep s 0 (c :: cur)

/-- Go's `strings.Split`. -/
def Split (s sep : String) : List String :=
  if sep.data.isEmpty then s.data.map (fun c => ⟨[c]⟩) else splitFrom sep.data s.data 0 []

/-! ## float64 -/

/-- A finite binary floating-point value `m * 2 ^ e`. -/
structure Float64 where
  m : Int
  e : Int
deriving DecidableEq

/-- Floor of the binary logarithm, by halving. -/
def log2Fuel : Nat → Nat → Nat
  | 0, _ => 0
  | fuel + 1, n => if n < 2 then 0 else log2Fuel fuel (n / 2) + 1

/-- Canonical form: an odd mantissa, or zero. -/
def normalizeFuel : Nat → Int → Int → Float64
  | 0, m, e => ⟨m, e⟩
  | fuel + 1, m, e =>
    if m = 0 then ⟨0, 0⟩
    else if m % 2 = 0 then normalizeFuel fuel (m / 2) (e + 1) else ⟨m, e⟩

/-- The integer `k` with `2 ^ k ≤ p / q < 2 ^ (k + 1)`, for positive `p`, `q`. -/
def floorLog2 (p q : Nat) : Int :=
  let k : Int := (log2Fuel 4096 p : Int) - (log2Fuel 4096 q : Int)
  if (if 0 ≤ k then q * 2 ^ k.toNat ≤ p else q ≤ p * 2 ^ (-k).toNat) then k else k - 1

/-- IEEE-754 binary64 rounding (to nearest, ties to even) of the exact value
`± (p / q) * 2 ^ s`; subnormals are kept, overflow is not modelled. -/
def roundNE (neg : Bool) (p q : Nat) (s : Int) : Float64 :=
  if p = 0 then ⟨0, 0⟩
  else
    let E : Int := max (floorLog2 p q + s) (-1022)
    let u : Int := E - 52
    let t : Int := s - u
    let num : Nat := if 0 ≤ t then p * 2 ^ t.toNat else p
    let den : Nat := if 0 ≤ t then q else q * 2 ^ (-t).toNat
    let f : Nat := num / den
    let r : Nat := num % den
    let n : Nat :=
      if 2 * r < den then f else if den < 2 * r then f + 1 else if f % 2 = 0 then f else f + 1
    normalizeFuel 4096 (if neg then -(n : Int) else (n : Int)) u

/-- The conversion `float64(i)`. -/
def ofInt (i : Int) : Float64 := roundNE (decide (i < 0)) i.natAbs 1 0

/-- The product `a * b`. -/
def f64mul (a b : Float64) : Float64 :=
  roundNE (decide (a.m * b.m < 0)) (a.m * b.m).natAbs 1 (a.e + b.e)

/-- The quotient `a / b`, for `b` not zero. -/
def f64div (a b : Float64) : Float64 :=
  roundNE (decide (a.m * b.m < 0)) a.m.natAbs b.m.natAbs (a.e - b.e)

/-- The sum `a + b`. -/
def f64add (a b : Float64) : Float64 :=
  let e := min a.e b.e
  let s : Int := a.m * 2 ^ (a.e - e).toNat + b.m * 2 ^ (b.e - e).toNat
  roundNE (decide (s < 0)) s.natAbs 1 e

/-- The difference `a - b`. -/
def f64sub (a b : Float64) : Float64 := f64add a ⟨-b.m, b.e⟩

/-- The comparison `a < b`. -/
def f64lt (a b : Float64) : Bool :=
  let e := min a.e b.e
  decide (a.m * 2 ^ (a.e - e).toNat < b.m * 2 ^ (b.e - e).toNat)

/-- The conversion `int(x)`: the integer part, rounded toward zero. -/
def toInt (a : Float64) : Int :=
  if 0 ≤ a.e then a.m * 2 ^ a.e.toNat else Int.tdiv a.m (2 ^ (-a.e).toNat)

/-- Go's `math.Trunc`. -/
def Trunc (a : Float64) : Float64 := ofInt (toInt a)

/-- Decimal digits of `n`, padded with zeros on the left to `width` places. -/
def padDigits (width n : Nat) : String :=
  let d := toString n
  ⟨List.replicate (width - d.length) (Char.ofNat 48)⟩ ++ d

/-- The verbs `%f` (`prec = 6`) and `%.2f` (`prec = 2`) of `fmt.Sprintf`: the
exact value rounded half-to-even at `prec` decimals. -/
def formatFixed (prec : Nat) (x : Float64) : String :=
  let p : Nat := if 0 ≤ x.e then x.m.natAbs * 2 ^ x.e.toNat * 10 ^ prec else x.m.natAbs * 10 ^ prec
  let q : Nat := if 0 ≤ x.e then 1 else 2 ^ (-x.e).toNat
  let f : Nat := p / q
  let r : Nat := p % q
  let n : Nat :=
    if 2 * r < q then f else if q < 2 * r then f + 1 else if f % 2 = 0 then f else f + 1
  (if x.m < 0 then "-" else "") ++ toString (n / 10 ^ prec) ++
    (if prec = 0 then "" else "." ++ padDigits prec (n % 10 ^ prec))

/-! ## time -/

/-- The constant `time.Second`. -/
def Second : Int := 1000000000

/-- The constant `time.Minute`. -/
def Minute : Int := 60 * Second

/-- Go's `Time.Sub`: the difference of two instants, saturated to the range
of `time.Duration`. -/
def Sub (t u : Int) : Int :=
  if t - u < -9223372036854775808 then -9223372036854775808
  else if 9223372036854775807 < t - u then 9223372036854775807
  else t - u

/-- Go's `Duration.Seconds`. -/
def Seconds (d : Int) : Float64 :=
  f64add (ofInt (Int.tdiv d Second)) (f64div (ofInt (Int.tmod d Second)) (ofInt 1000000000))

/-- Go's `Duration.Minutes`. -/
def Minutes (d : Int) : Float64 :=
  f64add (ofInt (Int.tdiv d Minute)) (f64div (ofInt (Int.tmod d Minute)) (ofInt (60 * 1000000000)))

/-! ## Data model -/

/-- The payload embedded in an output line (`type Output`). -/
structure Output where
  State : String
  Name : String
  Type_ : String
  Time : Float64
deriving DecidableEq

/-- One decoded log line (`type GoTestJsonRowData`). -/
structure GoTestJsonRowData where
  Time : Int
  Action : String
  Package : String
  Test : String
  Output : String
  Elapsed : Float64
deriving DecidableEq

/-- The summary of one package (`type PackageDetails`). -/
structure PackageDetails where
  Name : String
  ElapsedTime : Float64
  Status : String
  FailedTests : Nat
  PassedTests : Nat
  SkippedTests : Nat
deriving DecidableEq

/-- One test record (`type TestDetails`). -/
structure TestDetails where
  PackageName : String
  Name : String
  ElapsedTime : Float64
  Status : String
deriving DecidableEq

/-- A test with its test cases (`type TestOverview`). -/
structure TestOverview where
  Test : TestDetails
  TestCases : List TestDetails
deriving DecidableEq

/-- The result of the aggregator (`type ProcessedTestdata`). -/
structure ProcessedTestdata where
  TotalTestTime : String
  TestDate : String
  FailedTests : Nat
  PassedTests : Nat
  SkippedTests : Nat
  TestSummary : List TestOverview
  packageDetailsIdx : List (String × PackageDetails)
deriving DecidableEq

/-- The package-level variables `packageName`, `packages` and `OS`. -/
structure Globals where
  packageName : String
  packages : List (String × String)
  OS : String
deriving DecidableEq

/-- The package-level variables when the program starts. -/
def Globals.initial : Globals := ⟨"", [], ""⟩

/-- The zero value of `Output`. -/
def Output.zero : Output := ⟨"", "", "", ⟨0, 0⟩⟩

/-- The zero value of `TestDetails`. -/
def TestDetails.zero : TestDetails := ⟨"", "", ⟨0, 0⟩, ""⟩

/-- The zero value of `PackageDetails`. -/
def PackageDetails.zero : PackageDetails := ⟨"", ⟨0, 0⟩, "", 0, 0, 0⟩

/-! ## Maps -/

/-- The assignment `m[k] = v`. -/
def mapSet {V : Type} : List (String × V) → String → V → List (String × V)
  | [], k, v => [(k, v)]
  | (k1, v1) :: rest, k, v => if k1 = k then (k, v) :: rest else (k1, v1) :: mapSet rest k v

/-- The lookup `v, ok := m[k]`. -/
def mapGet {V : Type} : List (String × V) → String → Option V
  | [], _ => none
  | (k1, v1) :: rest, k => if k1 = k then some v1 else mapGet rest k

/-! ## Environment -/

/-- The data handed to the report template (`type templateData`). -/
structure TemplateData where
  HTMLElements : List String
  FailedTests : Nat
  PassedTests : Nat
  SkippedTests : Nat
  TotalTestTime : String
  TestDate : String
deriving DecidableEq

/-- What a `bufio.Scanner` delivers: the lines read, and whether scanning
ended with an error. -/
structure Scanner where
  lines : List String
  err : Bool

/-- Library calls and the outside world. -/
structure Env where
  /-- `json.Unmarshal` of one line into a zero `GoTestJsonRowData`; `none` on error -/
  unmarshalRow : String → Option GoTestJsonRowData
  /-- the `Output` left by `json.Unmarshal` into a zero `Output`, its error ignored -/
  unmarshalOutput : String → Output
  /-- `Time.Format(time.RFC850)` -/
  formatRFC850 : Int → String
  /-- parsing and executing one of the constant fragment templates over a
  string map; on these templates neither step can fail -/
  execute : String → List (String × String) → String
  /-- `os.Open` followed by scanning the file -/
  openFile : String → Option Scanner
  /-- whether `file.Close` succeeds -/
  closeOk : String → Bool
  /-- scanning standard input -/
  stdin : Scanner
  /-- `assets.Asset` -/
  asset : String → Option String
  /-- whether the report template parses -/
  reportParses : String → Bool
  /-- executing the parsed report template; `none` on error -/
  executeReport : String → TemplateData → Option String
  /-- whether `ioutil.WriteFile` succeeds -/
  writeFile : String → String → Bool

/-! ## Reading the log -/

/-- The scanning loop of `ReadLogsFromFile`: every line is decoded, a row
with a test name sets `packageName` and is recorded in `packages`. -/
def readFileRows (env : Env) : List String → Globals → List GoTestJsonRowData →
    Except Failure (List GoTestJsonRowData × Globals)
  | [], g, rowData => .ok (rowData, g)
  | line :: rest, g, rowData =>
    match env.unmarshalRow line with
    | none => .error .unmarshal
    | some row =>
      let g1 : Globals :=
        if row.Test ≠ "" then
          { g with packageName := row.Test, packages := mapSet g.packages row.Test row.Action }
        else g
      readFileRows env rest g1 (rowData ++ [row])

/-- `ReadLogsFromFile`. -/
def ReadLogsFromFile (env : Env) (g : Globals) (fileName : String) :
    Except Failure (List GoTestJsonRowData × Globals) :=
  match env.openFile fileName with
  | none => .error .openFile
  | some sc =>
    match readFileRows env sc.lines g [] with
    | .error f => .error f
    | .ok (rowData, g1) =>
      if sc.err then .error .scanner
      else if env.closeOk fileName then .ok (rowData, g1)
      else .error .closeFile

/-- The scanning loop of `ReadLogsFromStdIn`: every line is decoded. -/
def readStdInRows (env : Env) : List String → List GoTestJsonRowData →
    Except Failure (List GoTestJsonRowData)
  | [], rowData => .ok rowData
  | line :: rest, rowData =>
    match env.unmarshalRow line with
    | none => .error .unmarshal
    | some row => readStdInRows env rest (rowData ++ [row])

/-- `ReadLogsFromStdIn`. -/
def ReadLogsFromStdIn (env : Env) (g : Globals) :
    Except Failure (List GoTestJsonRowData × Globals) :=
  match readStdInRows env env.stdin.lines [] with
  | .error f => .error f
  | .ok rowData => if env.stdin.err then .error .scanner else .ok (rowData, g)

/-! ## The aggregator -/

/-- The variables the loop of `ProcessTestData` works on. -/
structure LoopState where
  packageName : String
  OS : String
  testCasesIdx : List (String × TestDetails)
  packageDetailsIdx : List (String × PackageDetails)
  passedTests : Nat
  failedTests : Nat
  skippedTests : Nat
deriving DecidableEq

/-- The variables before the first row. -/
def LoopState.start (g : Globals) : LoopState :=
  { packageName := g.packageName, OS := g.OS, testCasesIdx := [], packageDetailsIdx := [],
    passedTests := 0, failedTests := 0, skippedTests := 0 }

/-- The payload `jsonMap` of a row: decoded from the output up to its last
closing brace when the output holds the marker, the zero value otherwise. -/
def jsonMapOf (env : Env) (r : GoTestJsonRowData) : Output :=
  if Contains r.Output "k3s test" then
    let output2 := LastIndex r.Output "\x7d"
    let output2 := output2 + 1
    env.unmarshalOutput (TrimSpace (sliceTo r.Output output2))
  else Output.zero

/-- The statement `if strings.Contains(r.Output, "OS") ...` of the loop. -/
def captureOS (r : GoTestJsonRowData) (OS : String) : Except Failure String :=
  if Contains r.Output "OS" then
    let res := Split r.Output "/"
    match index res 1 with
    | .error f => .error f
    | .ok s => .ok (TrimSpace s)
  else .ok OS

/-- The statement `if len(jsonMap.Name) > 1 ...` of the loop. -/
def recordTestCase (st : LoopState) (r : GoTestJsonRowData) (jsonMap : Output) : LoopState :=
  if jsonMap.Name.utf8ByteSize > 1 then
    let st1 : LoopState :=
      if jsonMap.State = "failed" ∨ jsonMap.State = "passed" ∨ jsonMap.State = "skipped" then
        { st with
          testCasesIdx := mapSet st.testCasesIdx (r.Test ++ jsonMap.Name)
            { PackageName := r.Test
              Name := jsonMap.Name
              ElapsedTime := f64div jsonMap.Time (ofInt (1000 * 1000 * 1000 * 60))
              Status := jsonMap.State } }
      else st
    if jsonMap.State = "failed" then { st1 with failedTests := st1.failedTests + 1 }
    else if jsonMap.State = "passed" then { st1 with passedTests := st1.passedTests + 1 }
    else if jsonMap.State = "skipped" then { st1 with skippedTests := st1.skippedTests + 1 }
    else st1
  else st

/-- The `else` branch of the loop: a row without a test name. -/
def recordPackage (st : LoopState) (r : GoTestJsonRowData) : LoopState :=
  let st1 : LoopState :=
    if r.Action = "fail" ∨ r.Action = "pass" ∨ r.Action = "skip" then
      { st with
        packageDetailsIdx := mapSet st.packageDetailsIdx st.packageName
          { Name := st.packageName
            ElapsedTime := f64div r.Elapsed (ofInt 60)
            Status := r.Action
            FailedTests := st.failedTests
            PassedTests := st.passedTests
            SkippedTests := st.skippedTests } }
    else st
  if r.Action = "output" then
    { st1 with
      packageDetailsIdx := mapSet st1.packageDetailsIdx st1.packageName
        { Name := st1.packageName
          ElapsedTime := ((mapGet st1.packageDetailsIdx r.Test).getD PackageDetails.zero).ElapsedTime
          Status := ((mapGet st1.packageDetailsIdx r.Test).getD PackageDetails.zero).Status
          FailedTests := st1.failedTests
          PassedTests := st1.passedTests
          SkippedTests := st1.skippedTests } }
  else st1

/-- One iteration of the loop `for _, r := range rowData`. -/
def processRow (env : Env) (st : LoopState) (r : GoTestJsonRowData) : Except Failure LoopState :=
  if r.Test ≠ "" then
    let st1 : LoopState := { st with packageName := r.Test }
    let jsonMap := jsonMapOf env r
    match captureOS r st1.OS with
    | .error f => .error f
    | .ok os => .ok (recordTestCase { st1 with OS := os } r jsonMap)
  else .ok (recordPackage st r)

/-- The loop `for _, r := range rowData`. -/
def processRows (env : Env) : LoopState → List GoTestJsonRowData → Except Failure LoopState
  | st, [] => .ok st
  | st, r :: rest =>
    match processRow env st r with
    | .error f => .error f
    | .ok st1 => processRows env st1 rest

/-- The loop `for key := range packages`: one overview per recorded name,
holding the test records of that package name. -/
def buildTestSummary (packages : List (String × String))
    (testCasesIdx : List (String × TestDetails)) : List TestOverview :=
  packages.map (fun kv =>
    { Test := TestDetails.zero
      TestCases := (testCasesIdx.map (fun e => e.2)).filter (fun t2 => t2.PackageName = kv.1) })

/-- The text of the total test time, from the last and the first time stamp. -/
def totalTestTimeOf (last first : Int) : String :=
  if f64lt (Seconds (Sub last first)) (ofInt 60) then
    formatFixed 6 (Seconds (Sub last first)) ++ " s"
  else
    let min : Int := toInt (Trunc (f64div (Seconds (Sub last first)) (ofInt 60)))
    let seconds : Int := toInt (Trunc (f64mul (f64sub (Minutes (Sub last first)) (ofInt min)) (ofInt 60)))
    toString min ++ "m:" ++ toString seconds ++ "s"

/-- The statements after the loops: both time stamps are read by index. -/
def totalTestTime (rowData : List GoTestJsonRowData) : Except Failure String :=
  match index rowData ((rowData.length : Int) - 1) with
  | .error f => .error f
  | .ok last =>
    match index rowData 0 with
    | .error f => .error f
    | .ok first => .ok (totalTestTimeOf last.Time first.Time)

/-- `ProcessTestData`, returning the summary and the package-level variables
it leaves behind. -/
def ProcessTestData (env : Env) (g : Globals) (rowData : List GoTestJsonRowData) :
    Except Failure (ProcessedTestdata × Globals) :=
  match processRows env (LoopState.start g) rowData with
  | .error f => .error f
  | .ok st =>
    let testSummary := buildTestSummary g.packages st.testCasesIdx
    match totalTestTime rowData with
    | .error f => .error f
    | .ok totalTestTime =>
      match index rowData 0 with
      | .error f => .error f
      | .ok first =>
        .ok ({ TotalTestTime := totalTestTime
               TestDate := env.formatRFC850 first.Time
               FailedTests := st.failedTests
               PassedTests := st.passedTests
               SkippedTests := st.skippedTests
               TestSummary := testSummary
               packageDetailsIdx := st.packageDetailsIdx },
             { g with packageName := st.packageName, OS := st.OS })

/-! ## The renderer -/

/-- The row of one test case, inside the loop `for _, tC := range pt.TestCases`. -/
def renderTestCase (env : Env) (tC : TestDetails) : String :=
  let testCaseHTMlTemplateString := "<div>\x7b\x7b.testName\x7d\x7d</div>" ++ "\n" ++
    "<div>\x7b\x7b.elapsedTime\x7d\x7dm</div>"
  let processedTestCaseTemplate := env.execute testCaseHTMlTemplateString
    [("testName", tC.Name), ("elapsedTime", formatFixed 6 tC.ElapsedTime)]
  if tC.Status = "passed" then
    "<div class=\"testCardLayout successBackgroundColor \">" ++ processedTestCaseTemplate ++ "</div>"
  else if tC.Status = "failed" then
    "<div  class=\"testCardLayout failBackgroundColor \">" ++ processedTestCaseTemplate ++ "</div>"
  else
    "<div  class=\"testCardLayout skipBackgroundColor \">" ++ processedTestCaseTemplate ++ "</div>"

/-- The fragment of a test without test cases (the branch
`if len(pt.TestCases) == 0` under the package-name check). -/
def renderStandalone (env : Env) (pt : TestOverview) : String :=
  let testHTMLTemplateString := "<div>\x7b\x7b.testName\x7d\x7d</div>" ++ "\n" ++
    "<div>\x7b\x7b.elapsedTime\x7d\x7ds</div>"
  let processedTestTemplate := env.execute testHTMLTemplateString
    [("testName", pt.Test.Name), ("elapsedTime", formatFixed 2 pt.Test.ElapsedTime)]
  if pt.Test.Status = "passed" then
    "<div class=\"testCardLayout successBackgroundColor \">" ++ processedTestTemplate ++ "</div>"
  else if pt.Test.Status = "failed" then
    "<div class=\"testCardLayout failBackgroundColor \">" ++ processedTestTemplate ++ "</div>"
  else
    "<div class=\"testCardLayout skipBackgroundColor \">" ++ processedTestTemplate ++ "</div>"

/-- The fragment of a test with its test cases. -/
def renderCollapsible (env : Env) (pt : TestOverview) : String :=
  let testHTMLTemplateString :=
    if pt.Test.Status = "passed" then
      "<div type=\"button\" class=\"collapsible \">" ++
        "\n" ++ "<div class=\"collapsibleHeading testCardLayout successBackgroundColor \">" ++
        "<div>+ \x7b\x7b.testName\x7d\x7d</div>" ++ "\n" ++ "<div>\x7b\x7b.elapsedTime\x7d\x7ds</div>" ++ "\n" ++
        "</div>" ++ "\n" ++
        "<div class=\"collapsibleHeadingContent\">"
    else if pt.Test.Status = "failed" then
      "<div type=\"button\" class=\"collapsible \">" ++
        "\n" ++ "<div class=\"collapsibleHeading testCardLayout failBackgroundColor \">" ++
        "<div>+ \x7b\x7b.testName\x7d\x7d</div>" ++ "\n" ++ "<div>\x7b\x7b.elapsedTime\x7d\x7ds</div>" ++ "\n" ++
        "</div>" ++ "\n" ++
        "<div class=\"collapsibleHeadingContent\">"
    else
      "<div type=\"button\" class=\"collapsible \">" ++
        "\n" ++ "<div class=\"collapsibleHeading testCardLayout skipBackgroundColor \">" ++
        "<div>+ \x7b\x7b.testName\x7d\x7d</div>" ++ "\n" ++ "<div>\x7b\x7b.elapsedTime\x7d\x7ds</div>" ++ "\n" ++
        "</div>" ++ "\n" ++
        "<div class=\"collapsibleHeadingContent\">"
  let testHTMLTemplateString := env.execute testHTMLTemplateString
    [("testName", pt.Test.Name), ("elapsedTime", formatFixed 6 pt.Test.ElapsedTime)]
  let testHTMLTemplateString := pt.TestCases.foldl
    (fun acc tC => acc ++ "\n" ++ renderTestCase env tC) testHTMLTemplateString
  testHTMLTemplateString ++ "\n" ++ "</div>" ++ "\n" ++ "</div>"

/-- The loop `for k, pt := range testCasesIdx` for the package `v`, from
position `k` on, with `testInfoTemplateString` as built so far. -/
def renderTests (env : Env) (v : PackageDetails) :
    List TestOverview → Nat → String → Except Failure String
  | [], _, testInfoTemplateString => .ok testInfoTemplateString
  | pt :: rest, k, testInfoTemplateString =>
    if pt.TestCases.length = 0 then .error .testRunFailed
    else
      match index pt.TestCases (k : Int) with
      | .error f => .error f
      | .ok t =>
        if t.PackageName = v.Name then
          if pt.TestCases.length = 0 then
            renderTests env v rest (k + 1) (testInfoTemplateString ++ "\n" ++ renderStandalone env pt)
          else
            renderTests env v rest (k + 1) (testInfoTemplateString ++ "\n" ++ renderCollapsible env pt)
        else renderTests env v rest (k + 1) testInfoTemplateString

/-- The heading of the package `v`. -/
def renderPackageInfo (env : Env) (OS : String) (v : PackageDetails) : String :=
  let packageInfoTemplateString := ""
  let _overwritten :=
    if v.Status ≠ "pass" ∨ v.Status ≠ "fail" ∨ v.Status ≠ "skip" then
      "<div>Test Run failed</div>" ++ "\n" ++ "<div>Run Time: \x7b\x7b.elapsedTime\x7d\x7d</div> " ++ "\n"
    else packageInfoTemplateString
  let packageInfoTemplateString :=
    "<div>\x7b\x7b.packageName\x7d\x7d</div>" ++ "\n" ++ "<div>Run Time: \x7b\x7b.elapsedTime\x7d\x7d</div> " ++ "\n"
  let processedPackageTemplate := env.execute packageInfoTemplateString
    [("packageName", v.Name ++ "_" ++ OS), ("elapsedTime", formatFixed 2 v.ElapsedTime)]
  if v.Status = "pass" then
    "<div class=\"collapsibleHeading packageCardLayout successBackgroundColor \">" ++
      processedPackageTemplate ++ "</div>"
  else if v.Status = "fail" then
    "<div class=\"collapsibleHeading packageCardLayout failBackgroundColor \">" ++
      processedPackageTemplate ++ "</div>"
  else
    "<div class=\"collapsibleHeading packageCardLayout skipBackgroundColor \">" ++
      processedPackageTemplate ++ "</div>"

/-- The body of the loop `for _, v := range packageDetailsIdx`. -/
def renderPackage (env : Env) (OS : String) (testCasesIdx : List TestOverview)
    (v : PackageDetails) : Except Failure String :=
  let htmlString := "<div type=\"button\" class=\"collapsible\">\n"
  let htmlString := htmlString ++ "\n" ++ renderPackageInfo env OS v
  match renderTests env v testCasesIdx 0 "" with
  | .error f => .error f
  | .ok testInfoTemplateString =>
    let htmlString := htmlString ++ "\n" ++ "<div class=\"collapsibleHeadingContent\">\n" ++
      testInfoTemplateString ++ "\n" ++ "</div>"
    .ok (htmlString ++ "\n" ++ "</div>")

/-- The loop `for _, v := range packageDetailsIdx`, appending to `templates`. -/
def renderPackages (env : Env) (OS : String) (testCasesIdx : List TestOverview) :
    List (String × PackageDetails) → List String → Except Failure (List String)
  | [], templates => .ok templates
  | kv :: rest, templates =>
    match renderPackage env OS testCasesIdx kv.2 with
    | .error f => .error f
    | .ok htmlString => renderPackages env OS testCasesIdx rest (templates ++ [htmlString])

/-- `GenerateHTMLReport`: the name and the content of the file it writes. -/
def GenerateHTMLReport (env : Env) (g : Globals) (totalTestTime testDate : String)
    (failedTests passedTests skippedTests : Nat) (testCasesIdx : List TestOverview)
    (packageDetailsIdx : List (String × PackageDetails)) : Except Failure (String × String) :=
  match renderPackages env g.OS testCasesIdx packageDetailsIdx [] with
  | .error f => .error f
  | .ok templates =>
    match env.asset "report-template.html" with
    | none => .error .assetMissing
    | some reportTemplateData =>
      if env.reportParses reportTemplateData then
        match env.executeReport reportTemplateData
          { HTMLElements := templates
            FailedTests := failedTests
            PassedTests := passedTests
            SkippedTests := skippedTests
            TotalTestTime := totalTestTime
            TestDate := testDate } with
        | none => .error .reportExecute
        | some processedTemplate =>
          if env.writeFile ("k3s_" ++ g.OS ++ "_results.html") processedTemplate then
            .ok ("k3s_" ++ g.OS ++ "_results.html", processedTemplate)
          else .error .writeFile
      else .error .reportParse

/-! ## The command -/

/-- The function `RunE` of the root command, for the value `file` of the
flag: read the rows, aggregate them, write the report. -/
def RunE (env : Env) (g : Globals) (file : String) : Except Failure (String × String) :=
  match (if file ≠ "" then ReadLogsFromFile env g file else ReadLogsFromStdIn env g) with
  | .error f => .error f
  | .ok (testData, g1) =>
    match ProcessTestData env g1 testData with
    | .error f => .error f
    | .ok (processedTestdata, g2) =>
      GenerateHTMLReport env g2 processedTestdata.TotalTestTime processedTestdata.TestDate
        processedTestdata.FailedTests processedTestdata.PassedTests processedTestdata.SkippedTests
        processedTestdata.TestSummary processedTestdata.packageDetailsIdx

/-! ## A concrete environment for the examples -/

/-- The text of a subtest payload as the test runner prints it. -/
def payloadText (state name time : String) : String :=
  "\x7b\"State\":\"" ++ state ++ "\",\"Name\":\"" ++ name ++
    "\",\"Type\":\"k3s test\",\"Time\":" ++ time ++ "\x7d"

/-- The payloads of the examples with the values `json.Unmarshal` gives them. -/
def samplePayloads : List (String × Output) :=
  [ (payloadText "passed" "a" "1000000000", ⟨"passed", "a", "k3s test", ofInt 1000000000⟩),
    (payloadText "passed" "Test1" "120000000000", ⟨"passed", "Test1", "k3s test", ofInt 120000000000⟩),
    (payloadText "passed" "Test2" "1000000000", ⟨"passed", "Test2", "k3s test", ofInt 1000000000⟩),
    (payloadText "failed" "Test3" "1000000000", ⟨"failed", "Test3", "k3s test", ofInt 1000000000⟩),
    (payloadText "passed" "cd" "1000000000", ⟨"passed", "cd", "k3s test", ofInt 1000000000⟩),
    (payloadText "failed" "bcd" "1000000000", ⟨"failed", "bcd", "k3s test", ofInt 1000000000⟩) ]

/-- A row of the examples: recorded at the instant `time`, with the other
fields as given and no package name. -/
def sampleRow (time : Int) (action test output : String) (elapsed : Int) : GoTestJsonRowData :=
  { Time := time, Action := action, Package := "", Test := test, Output := output,
    Elapsed := ofInt elapsed }

/-- The log lines of the examples with the rows `json.Unmarshal` gives them. -/
def sampleLines : List (String × GoTestJsonRowData) :=
  [ ("\x7b\"Time\":\"1970-01-01T00:00:00Z\",\"Action\":\"run\",\"Test\":\"TestA\"\x7d",
      sampleRow 0 "run" "TestA" "" 0) ]

/-- Substitution of every field reference of a fragment template by its
value (the values of the examples need no escaping). -/
def sampleExecute (template : String) : List (String × String) → String
  | [] => template
  | (k, v) :: rest =>
    sampleExecute (String.intercalate v (Split template ("\x7b\x7b." ++ k ++ "\x7d\x7d"))) rest

/-- The environment of the examples: standard input and every file deliver
the lines `stdin`, the report template is present and the report can be
written; every run starts at the Unix epoch. -/
def sampleEnv (stdin : List String) : Env :=
  { unmarshalRow := fun line => mapGet sampleLines line
    unmarshalOutput := fun text => (mapGet samplePayloads text).getD Output.zero
    formatRFC850 := fun _ => "Thursday, 01-Jan-70 00:00:00 UTC"
    execute := sampleExecute
    openFile := fun _ => some ⟨stdin, false⟩
    closeOk := fun _ => true
    stdin := ⟨stdin, false⟩
    asset := fun name => if name = "report-template.html" then some "report" else none
    reportParses := fun _ => true
    executeReport := fun _ data => some (String.intercalate "\n" data.HTMLElements)
    writeFile := fun _ _ => true }

/-! ## Vocabulary of the properties -/

/-- A row whose subtest outcome the loop counts under `state`: it has a test
name, and its payload has a name longer than one byte and that state. -/
def isCounted (env : Env) (state : String) (r : GoTestJsonRowData) : Bool :=
  decide (r.Test ≠ "") && (decide ((jsonMapOf env r).Name.utf8ByteSize > 1) &&
    decide ((jsonMapOf env r).State = state))

/-- A row with a recognized subtest outcome: it has a test name, and its
payload has a name longer than one byte and one of the three states. -/
def isRecognized (env : Env) (r : GoTestJsonRowData) : Bool :=
  decide (r.Test ≠ "") && (decide ((jsonMapOf env r).Name.utf8ByteSize > 1) &&
    (decide ((jsonMapOf env r).State = "failed") || (decide ((jsonMapOf env r).State = "passed") ||
      decide ((jsonMapOf env r).State = "skipped"))))

/-- A row with a subtest outcome as the specification words it: it has a
test name, and its payload has a non-empty name and one of the three states. -/
def isRecognizedAsWorded (env : Env) (r : GoTestJsonRowData) : Bool :=
  decide (r.Test ≠ "") && (decide ((jsonMapOf env r).Name ≠ "") &&
    (decide ((jsonMapOf env r).State = "failed") || (decide ((jsonMapOf env r).State = "passed") ||
      decide ((jsonMapOf env r).State = "skipped"))))

/-- A row with a subtest outcome of the state `state` as the specification
words it: it has a test name, and its payload has a non-empty name and that
state. -/
def isCountedAsWorded (env : Env) (state : String) (r : GoTestJsonRowData) : Bool :=
  decide (r.Test ≠ "") && (decide ((jsonMapOf env r).Name ≠ "") &&
    decide ((jsonMapOf env r).State = state))

/-- The minutes and seconds of a duration of `d` nanoseconds as the
specification words them: `m = trunc (d / 60)` and `s = trunc (d - 60 * m)`
for `d` in seconds, in exact arithmetic. -/
def minutesSecondsAsWorded (d : Int) : Int × Int :=
  (Int.tdiv d (60 * 1000000000),
    Int.tdiv (d - 60 * 1000000000 * Int.tdiv d (60 * 1000000000)) 1000000000)

/-- All reads `TestCases[k]` of the loop over the overviews are in range,
the first overview of the list standing at position `k`. -/
def readsInRange : List TestOverview → Nat → Bool
  | [], _ => true
  | pt :: rest, k => decide (k < pt.TestCases.length) && readsInRange rest (k + 1)

/-- The failure of a computation, if it failed. -/
def failureOf {α : Type} : Except Failure α → Option Failure
  | .error f => some f
  | .ok _ => none

/-- The value of a computation, or `d` if it failed. -/
def valueOr {α : Type} (d : α) : Except Failure α → α
  | .error _ => d
  | .ok a => a

/-- The zero value of `ProcessedTestdata`. -/
def ProcessedTestdata.zero : ProcessedTestdata := ⟨"", "", 0, 0, 0, [], []⟩

/-! ## Inputs of the examples -/

/-- Two passed subtests under `TestA`, then one failed subtest under `TestB`. -/
def rowsTwoPackages : List GoTestJsonRowData :=
  [ sampleRow 0 "output" "TestA" (payloadText "passed" "Test1" "120000000000" ++ "\n") 0,
    sampleRow 0 "output" "TestA" (payloadText "passed" "Test2" "1000000000" ++ "\n") 0,
    sampleRow 0 "output" "TestB" (payloadText "failed" "Test3" "1000000000" ++ "\n") 0 ]

/-- A package-level row reporting a pass after five seconds. -/
def rowPackagePass : GoTestJsonRowData := sampleRow 0 "pass" "" "" 5

/-- A subtest outcome whose name is one byte long. -/
def rowsOneByteName : List GoTestJsonRowData :=
  [ sampleRow 0 "output" "TestA" (payloadText "passed" "a" "1000000000" ++ "\n") 0 ]

/-- A test starts, its package passes after sixty seconds, and a package-level
output line follows. -/
def rowsOutputAfterPass : List GoTestJsonRowData :=
  [ sampleRow 0 "run" "TestA" "" 0,
    sampleRow 0 "pass" "" "" 60,
    sampleRow 0 "output" "" "ok\n" 0 ]

/-- The pairs `(TestAb, cd)` and `(TestA, bcd)`, in this order. -/
def rowsSameConcatenation : List GoTestJsonRowData :=
  [ sampleRow 0 "output" "TestAb" (payloadText "passed" "cd" "1000000000" ++ "\n") 0,
    sampleRow 0 "output" "TestA" (payloadText "failed" "bcd" "1000000000" ++ "\n") 0 ]

/-- The one log line of the reader example. -/
def linesOneTest : List String :=
  [ "\x7b\"Time\":\"1970-01-01T00:00:00Z\",\"Action\":\"run\",\"Test\":\"TestA\"\x7d" ]

/-- A run whose first and last rows are 61 seconds apart. -/
def rowsSixtyOneSeconds : List GoTestJsonRowData :=
  [ sampleRow 0 "run" "TestA" "" 0,
    sampleRow 61000000000 "pass" "" "" 61 ]

/-- A test row whose output names the operating system without a slash. -/
def rowsOSWithoutSlash : List GoTestJsonRowData :=
  [ sampleRow 0 "output" "TestA" "OS: linux\n" 0 ]

/-- An overview without test cases. -/
def overviewWithoutCases : TestOverview := ⟨TestDetails.zero, []⟩

/-- A test record of the package `TestA`. -/
def recordOfTestA (name : String) : TestDetails := ⟨"TestA", name, ofInt 2, "passed"⟩

/-- The summary of the package `TestA`. -/
def summaryOfTestA : String × PackageDetails := ("TestA", ⟨"TestA", ofInt 1, "pass", 0, 1, 0⟩)

/-! ## The loop of the aggregator -/

theorem processRows_append (env : Env) (st : LoopState) (xs ys : List GoTestJsonRowData) :
    processRows env st (xs ++ ys) =
      match processRows env st xs with
      | .error f => .error f
      | .ok st1 => processRows env st1 ys := by
  induction xs generalizing st with
  | nil => simp [processRows]
  | cons r rest ih =>
    simp only [List.cons_append, processRows]
    cases h : processRow env st r with
    | error f => simp
    | ok st1 => simpa using ih st1

theorem recordTestCase_packageName (st : LoopState) (r : GoTestJsonRowData) (j : Output) :
    (recordTestCase st r j).packageName = st.packageName := by
  unfold recordTestCase
  split_ifs <;> rfl

theorem recordPackage_packageName (st : LoopState) (r : GoTestJsonRowData) :
    (recordPackage st r).packageName = st.packageName := by
  unfold recordPackage
  split_ifs <;> rfl

theorem recordPackage_counters (st : LoopState) (r : GoTestJsonRowData) :
    (recordPackage st r).failedTests = st.failedTests ∧
      (recordPackage st r).passedTests = st.passedTests ∧
      (recordPackage st r).skippedTests = st.skippedTests := by
  unfold recordPackage
  split_ifs <;> exact ⟨rfl, rfl, rfl⟩

theorem recordTestCase_counters (st : LoopState) (r : GoTestJsonRowData) (j : Output) :
    (recordTestCase st r j).failedTests =
        st.failedTests + (if 1 < j.Name.utf8ByteSize ∧ j.State = "failed" then 1 else 0) ∧
      (recordTestCase st r j).passedTests =
        st.passedTests + (if 1 < j.Name.utf8ByteSize ∧ j.State = "passed" then 1 else 0) ∧
      (recordTestCase st r j).skippedTests =
        st.skippedTests + (if 1 < j.Name.utf8ByteSize ∧ j.State = "skipped" then 1 else 0) := by
  have h1 : ("failed" : String) ≠ "passed" := by decide
  have h2 : ("failed" : String) ≠ "skipped" := by decide
  have h3 : ("passed" : String) ≠ "skipped" := by decide
  unfold recordTestCase
  by_cases hn : 1 < j.Name.utf8ByteSize
  · by_cases hf : j.State = "failed"
    · simp [hn, hf, h1, h2]
    · by_cases hp : j.State = "passed"
      · simp [hn, hp, h1.symm, h3]
      · by_cases hs : j.State = "skipped"
        · simp [hn, hs, h2.symm, h3.symm]
        · simp [hn, hf, hp, hs]
  · simp [hn]

theorem processRow_of_test_empty (env : Env) (st : LoopState) (r : GoTestJsonRowData)
    (ht : r.Test = "") : processRow env st r = .ok (recordPackage st r) := by
  simp [processRow, ht]

theorem processRow_counters (env : Env) (st st1 : LoopState) (r : GoTestJsonRowData)
    (h : processRow env st r = .ok st1) :
    st1.failedTests = st.failedTests + (if isCounted env "failed" r then 1 else 0) ∧
      st1.passedTests = st.passedTests + (if isCounted env "passed" r then 1 else 0) ∧
      st1.skippedTests = st.skippedTests + (if isCounted env "skipped" r then 1 else 0) := by
  by_cases ht : r.Test = ""
  · rw [processRow_of_test_empty env st r ht] at h
    cases h
    simpa [isCounted, ht] using recordPackage_counters st r
  · unfold processRow at h
    simp only [ne_eq, ht, not_false_eq_true, if_true] at h
    cases hos : captureOS r st.OS with
    | error f => simp [hos] at h
    | ok os =>
      simp only [hos] at h
      cases h
      simpa [isCounted, ht] using
        recordTestCase_counters { st with packageName := r.Test, OS := os } r (jsonMapOf env r)

theorem processRow_packageName (env : Env) (st st1 : LoopState) (r : GoTestJsonRowData)
    (h : processRow env st r = .ok st1) :
    st1.packageName = if r.Test = "" then st.packageName else r.Test := by
  by_cases ht : r.Test = ""
  · rw [processRow_of_test_empty env st r ht] at h
    cases h
    simp [ht, recordPackage_packageName]
  · unfold processRow at h
    simp only [ne_eq, ht, not_false_eq_true, if_true] at h
    cases hos : captureOS r st.OS with
    | error f => simp [hos] at h
    | ok os =>
      simp only [hos] at h
      cases h
      simp [ht, recordTestCase_packageName]

theorem processRows_counters (env : Env) (rows : List GoTestJsonRowData) (st st1 : LoopState)
    (h : processRows env st rows = .ok st1) :
    st1.failedTests = st.failedTests + rows.countP (isCounted env "failed") ∧
      st1.passedTests = st.passedTests + rows.countP (isCounted env "passed") ∧
      st1.skippedTests = st.skippedTests + rows.countP (isCounted env "skipped") := by
  induction rows generalizing st with
  | nil =>
    simp only [processRows] at h
    cases h
    simp
  | cons r rest ih =>
    simp only [processRows] at h
    cases hr : processRow env st r with
    | error f => simp [hr] at h
    | ok st2 =>
      simp only [hr] at h
      obtain ⟨a1, a2, a3⟩ := processRow_counters env st st2 r hr
      obtain ⟨b1, b2, b3⟩ := ih st2 h
      simp only [List.countP_cons]
      refine ⟨?_, ?_, ?_⟩
      · rw [b1, a1]; omega
      · rw [b2, a2]; omega
      · rw [b3, a3]; omega

theorem processRows_packageName_of_no_test (env : Env) (rows : List GoTestJsonRowData)
    (st st1 : LoopState) (hall : ∀ r ∈ rows, r.Test = "")
    (h : processRows env st rows = .ok st1) : st1.packageName = st.packageName := by
  induction rows generalizing st with
  | nil =>
    simp only [processRows] at h
    cases h
    rfl
  | cons r rest ih =>
    simp only [processRows] at h
    cases hr : processRow env st r with
    | error f => simp [hr] at h
    | ok st2 =>
      simp only [hr] at h
      have h2 := ih st2 (fun x hx => hall x (List.mem_cons_of_mem _ hx)) h
      have h3 := processRow_packageName env st st2 r hr
      rw [h2, h3]
      simp [hall r (List.mem_cons_self _ _)]

theorem countP_isRecognized (env : Env) (rows : List GoTestJsonRowData) :
    rows.countP (isRecognized env) =
      rows.countP (isCounted env "failed") + rows.countP (isCounted env "passed") +
        rows.countP (isCounted env "skipped") := by
  have h1 : ("failed" : String) ≠ "passed" := by decide
  have h2 : ("failed" : String) ≠ "skipped" := by decide
  have h3 : ("passed" : String) ≠ "skipped" := by decide
  induction rows with
  | nil => simp
  | cons r rest ih =>
    simp only [List.countP_cons, ih]
    have key : (if isRecognized env r = true then 1 else 0) =
        (if isCounted env "failed" r = true then 1 else 0) +
          (if isCounted env "passed" r = true then 1 else 0) +
          (if isCounted env "skipped" r = true then 1 else 0) := by
      unfold isRecognized isCounted
      by_cases ht : r.Test = ""
      · simp [ht]
      · by_cases hn : 1 < (jsonMapOf env r).Name.utf8ByteSize
        · by_cases hf : (jsonMapOf env r).State = "failed"
          · simp [ht, hn, hf, h1, h2]
          · by_cases hp : (jsonMapOf env r).State = "passed"
            · simp [ht, hn, hp, h1.symm, h3]
            · by_cases hs : (jsonMapOf env r).State = "skipped"
              · simp [ht, hn, hs, h2.symm, h3.symm]
              · simp [ht, hn, hf, hp, hs]
        · simp [ht, hn]
    omega

/-! ## Maps and indexing -/

theorem mapGet_mapSet_self {V : Type} (m : List (String × V)) (k : String) (v : V) :
    mapGet (mapSet m k v) k = some v := by
  induction m with
  | nil => simp [mapSet, mapGet]
  | cons kv rest ih =>
    obtain ⟨k1, v1⟩ := kv
    by_cases h : k1 = k
    · simp [mapSet, mapGet, h]
    · simp [mapSet, mapGet, h, ih]

theorem index_zero_of_ne_nil {α : Type} (xs : List α) (h : xs ≠ []) :
    ∃ x, index xs 0 = .ok x := by
  cases xs with
  | nil => exact absurd rfl h
  | cons x rest => exact ⟨x, by simp [index]⟩

theorem index_last_of_ne_nil {α : Type} (xs : List α) (h : xs ≠ []) :
    ∃ x, index xs ((xs.length : Int) - 1) = .ok x := by
  cases xs with
  | nil => exact absurd rfl h
  | cons x rest =>
    have h1 : ¬ (((x :: rest).length : Int) - 1 < 0) := by
      simp only [List.length_cons]; push_cast; omega
    have h2 : (((x :: rest).length : Int) - 1).toNat = rest.length := by
      simp only [List.length_cons]; push_cast; omega
    have h3 : rest.length < (x :: rest).length := by simp
    refine ⟨(x :: rest)[rest.length], ?_⟩
    unfold index
    rw [if_neg h1, h2, List.getElem?_eq_getElem h3]

theorem totalTestTime_of_ne_nil (rowData : List GoTestJsonRowData) (h : rowData ≠ []) :
    ∃ text, totalTestTime rowData = .ok text := by
  obtain ⟨last, hl⟩ := index_last_of_ne_nil rowData h
  obtain ⟨first, hf⟩ := index_zero_of_ne_nil rowData h
  exact ⟨totalTestTimeOf last.Time first.Time, by simp [totalTestTime, hl, hf]⟩

/-! ## The loop over the overviews -/

theorem index_natCast {α : Type} (xs : List α) (k : Nat) :
    index xs (k : Int) = if h : k < xs.length then .ok xs[k] else .error .indexOutOfRange := by
  have h1 : ¬ ((k : Int) < 0) := by omega
  unfold index
  rw [if_neg h1, Int.toNat_ofNat]
  by_cases h : k < xs.length
  · simp [h, List.getElem?_eq_getElem h]
  · simp [h, List.getElem?_eq_none (Nat.le_of_not_lt h)]

theorem readsInRange_iff (l : List TestOverview) (k : Nat) :
    readsInRange l k = true ↔ ∀ i (h : i < l.length), k + i < (l[i]).TestCases.length := by
  induction l generalizing k with
  | nil => simp [readsInRange]
  | cons pt rest ih =>
    simp only [readsInRange, Bool.and_eq_true, decide_eq_true_eq, ih]
    constructor
    · rintro ⟨h0, hr⟩ i hi
      cases i with
      | zero => simpa using h0
      | succ j =>
        have := hr j (by simpa using hi)
        simp only [List.getElem_cons_succ]
        omega
    · intro h
      refine ⟨by simpa using h 0 (by simp), fun j hj => ?_⟩
      have := h (j + 1) (by simpa using hj)
      simp only [List.getElem_cons_succ] at this
      omega

theorem renderTests_append (env : Env) (v : PackageDetails) (pre rest : List TestOverview)
    (k : Nat) (acc : String) (hne : ∀ pt ∈ pre, pt.TestCases ≠ [])
    (hr : readsInRange pre k = true) :
    ∃ acc1, renderTests env v (pre ++ rest) k acc = renderTests env v rest (k + pre.length) acc1 := by
  induction pre generalizing k acc with
  | nil => exact ⟨acc, by simp⟩
  | cons pt more ih =>
    simp only [readsInRange, Bool.and_eq_true, decide_eq_true_eq] at hr
    have hpt : pt.TestCases.length ≠ 0 := by
      simpa using hne pt (List.mem_cons_self _ _)
    have hmore : ∀ q ∈ more, q.TestCases ≠ [] := fun q hq => hne q (List.mem_cons_of_mem _ hq)
    simp only [List.cons_append, renderTests, hpt, if_false, index_natCast, hr.1, dif_pos,
      List.length_cons]
    have e : k + (more.length + 1) = k + 1 + more.length := by omega
    by_cases hv : (pt.TestCases[k]).PackageName = v.Name
    · obtain ⟨acc1, h1⟩ := ih (k + 1) (acc ++ "\n" ++ renderCollapsible env pt) hmore hr.2
      exact ⟨acc1, by rw [e]; simp only [hv, if_true]; exact h1⟩
    · obtain ⟨acc1, h1⟩ := ih (k + 1) acc hmore hr.2
      exact ⟨acc1, by rw [e]; simp only [hv, if_false]; exact h1⟩

theorem renderTests_ok (env : Env) (v : PackageDetails) (l : List TestOverview)
    (k : Nat) (acc : String) (hne : ∀ pt ∈ l, pt.TestCases ≠ [])
    (hr : readsInRange l k = true) : ∃ text, renderTests env v l k acc = .ok text := by
  obtain ⟨acc1, h⟩ := renderTests_append env v l [] k acc hne hr
  exact ⟨acc1, by simpa [renderTests] using h⟩

theorem renderTests_out_of_range (env : Env) (v : PackageDetails) (pre rest : List TestOverview)
    (k : Nat) (acc : String) (hne : ∀ pt ∈ pre, pt.TestCases ≠ [])
    (hr : readsInRange pre k = false) :
    renderTests env v (pre ++ rest) k acc = .error .indexOutOfRange := by
  induction pre generalizing k acc with
  | nil => simp [readsInRange] at hr
  | cons pt more ih =>
    have hpt : pt.TestCases.length ≠ 0 := by
      simpa using hne pt (List.mem_cons_self _ _)
    have hmore : ∀ q ∈ more, q.TestCases ≠ [] := fun q hq => hne q (List.mem_cons_of_mem _ hq)
    simp only [List.cons_append, renderTests, hpt, if_false, index_natCast]
    by_cases hk : k < pt.TestCases.length
    · have hr2 : readsInRange more (k + 1) = false := by
        simpa [readsInRange, hk] using hr
      simp only [hk, dif_pos]
      by_cases hv : (pt.TestCases[k]).PackageName = v.Name
      · simp only [hv, if_true]
        exact ih (k + 1) _ hmore hr2
      · simp only [hv, if_false]
        exact ih (k + 1) _ hmore hr2
    · simp [hk]

theorem renderTests_empty_overview (env : Env) (v : PackageDetails) (pt : TestOverview)
    (rest : List TestOverview) (k : Nat) (acc : String) (hpt : pt.TestCases = []) :
    renderTests env v (pt :: rest) k acc = .error .testRunFailed := by
  simp [renderTests, hpt]

/-! ## The renderer as a whole -/

theorem GenerateHTMLReport_of_renderTests_error (env : Env) (g : Globals)
    (totalTestTime testDate : String) (failedTests passedTests skippedTests : Nat)
    (testCasesIdx : List TestOverview) (kv : String × PackageDetails)
    (rest : List (String × PackageDetails)) (f : Failure)
    (h : renderTests env kv.2 testCasesIdx 0 "" = .error f) :
    GenerateHTMLReport env g totalTestTime testDate failedTests passedTests skippedTests
      testCasesIdx (kv :: rest) = .error f := by
  simp [GenerateHTMLReport, renderPackages, renderPackage, h]

theorem renderPackages_ok (env : Env) (OS : String) (testCasesIdx : List TestOverview)
    (hok : ∀ v, ∃ text, renderTests env v testCasesIdx 0 "" = .ok text)
    (packageDetailsIdx : List (String × PackageDetails)) (templates : List String) :
    ∃ ts, renderPackages env OS testCasesIdx packageDetailsIdx templates = .ok ts := by
  induction packageDetailsIdx generalizing templates with
  | nil => exact ⟨templates, rfl⟩
  | cons kv rest ih =>
    obtain ⟨text, ht⟩ := hok kv.2
    simp only [renderPackages, renderPackage, ht]
    exact ih _

theorem GenerateHTMLReport_in_range (env : Env) (g : Globals)
    (totalTestTime testDate : String) (failedTests passedTests skippedTests : Nat)
    (testCasesIdx : List TestOverview) (packageDetailsIdx : List (String × PackageDetails))
    (hok : ∀ v, ∃ text, renderTests env v testCasesIdx 0 "" = .ok text) :
    GenerateHTMLReport env g totalTestTime testDate failedTests passedTests skippedTests
      testCasesIdx packageDetailsIdx ≠ .error .indexOutOfRange := by
  obtain ⟨ts, hts⟩ := renderPackages_ok env g.OS testCasesIdx hok packageDetailsIdx []
  unfold GenerateHTMLReport
  simp only [hts]
  cases env.asset "report-template.html" with
  | none => simp
  | some reportTemplateData =>
    by_cases hp : env.reportParses reportTemplateData = true
    · simp only [hp, if_true]
      cases env.executeReport reportTemplateData
          ⟨ts, failedTests, passedTests, skippedTests, totalTestTime, testDate⟩ with
      | none => simp
      | some processedTemplate =>
        by_cases hw : env.writeFile ("k3s_" ++ g.OS ++ "_results.html") processedTemplate = true
        · simp [hw]
        · simp [hw]
    · simp [hp]

/-! ## Properties of the aggregator -/

theorem ProcessTestData_of_processRows (env : Env) (g : Globals)
    (rowData : List GoTestJsonRowData) (st : LoopState) (hne : rowData ≠ [])
    (h : processRows env (LoopState.start g) rowData = .ok st) :
    ∃ (text : String) (first : GoTestJsonRowData), ProcessTestData env g rowData =
      .ok (⟨text, env.formatRFC850 first.Time, st.failedTests, st.passedTests, st.skippedTests,
            buildTestSummary g.packages st.testCasesIdx, st.packageDetailsIdx⟩,
           { g with packageName := st.packageName, OS := st.OS }) := by
  obtain ⟨text, ht⟩ := totalTestTime_of_ne_nil rowData hne
  obtain ⟨first, hf⟩ := index_zero_of_ne_nil rowData hne
  exact ⟨text, first, by simp [ProcessTestData, h, ht, hf]⟩

theorem processRows_of_ProcessTestData (env : Env) (g g1 : Globals)
    (rowData : List GoTestJsonRowData) (res : ProcessedTestdata)
    (h : ProcessTestData env g rowData = .ok (res, g1)) :
    ∃ st, processRows env (LoopState.start g) rowData = .ok st ∧
      res.FailedTests = st.failedTests ∧ res.PassedTests = st.passedTests ∧
      res.SkippedTests = st.skippedTests ∧
      res.TestSummary = buildTestSummary g.packages st.testCasesIdx ∧
      res.packageDetailsIdx = st.packageDetailsIdx := by
  unfold ProcessTestData at h
  cases hrun : processRows env (LoopState.start g) rowData with
  | error f => simp [hrun] at h
  | ok st =>
    simp only [hrun] at h
    cases ht : totalTestTime rowData with
    | error f => simp [ht] at h
    | ok text =>
      simp only [ht] at h
      cases hf : index rowData 0 with
      | error f => simp [hf] at h
      | ok first =>
        simp only [hf, Except.ok.injEq, Prod.mk.injEq] at h
        obtain ⟨h1, _⟩ := h
        subst h1
        exact ⟨st, rfl, rfl, rfl, rfl, rfl, rfl⟩

/-- C1 (amended): whenever `ProcessTestData` returns, the three totals add up
to the number of rows with a test name whose payload has a name longer than
one byte and a state among `failed`, `passed`, `skipped`. -/
theorem totals_count_recognized_rows (env : Env) (g g1 : Globals)
    (rowData : List GoTestJsonRowData) (res : ProcessedTestdata)
    (h : ProcessTestData env g rowData = .ok (res, g1)) :
    res.FailedTests + res.PassedTests + res.SkippedTests = rowData.countP (isRecognized env) := by
  obtain ⟨st, hrun, hf, hp, hs, _, _⟩ := processRows_of_ProcessTestData env g g1 rowData res h
  obtain ⟨c1, c2, c3⟩ := processRows_counters env rowData (LoopState.start g) st hrun
  rw [hf, hp, hs, c1, c2, c3, countP_isRecognized]
  simp [LoopState.start]

set_option maxRecDepth 100000 in
/-- Witness of C1 (amended): on the run of two packages the totals 1 + 2 + 0
count its three recognized rows. -/
theorem totals_count_recognized_rows_witness :
    (valueOr (ProcessedTestdata.zero, Globals.initial)
        (ProcessTestData (sampleEnv []) Globals.initial rowsTwoPackages)).1.FailedTests +
      (valueOr (ProcessedTestdata.zero, Globals.initial)
        (ProcessTestData (sampleEnv []) Globals.initial rowsTwoPackages)).1.PassedTests +
      (valueOr (ProcessedTestdata.zero, Globals.initial)
        (ProcessTestData (sampleEnv []) Globals.initial rowsTwoPackages)).1.SkippedTests =
        rowsTwoPackages.countP (isRecognized (sampleEnv [])) ∧
      rowsTwoPackages.countP (isRecognized (sampleEnv [])) = 3 :=
  ⟨totals_count_recognized_rows (sampleEnv []) Globals.initial
      (valueOr (ProcessedTestdata.zero, Globals.initial)
        (ProcessTestData (sampleEnv []) Globals.initial rowsTwoPackages)).2
      rowsTwoPackages
      (valueOr (ProcessedTestdata.zero, Globals.initial)
        (ProcessTestData (sampleEnv []) Globals.initial rowsTwoPackages)).1
      (by rfl),
    by decide⟩

set_option maxRecDepth 100000 in
/-- Counterexample to C1 as worded: a single subtest outcome named `a` with
state `passed` is a payload with a non-empty name and a recognized state, yet
the totals add up to zero. -/
theorem totals_miss_one_byte_name :
    (ProcessTestData (sampleEnv []) Globals.initial rowsOneByteName).toOption.map
        (fun p => p.1.FailedTests + p.1.PassedTests + p.1.SkippedTests) = some 0 ∧
      rowsOneByteName.countP (isRecognizedAsWorded (sampleEnv [])) = 1 := by
  decide

theorem processRows_packageName_after_test (env : Env) (st0 st : LoopState)
    (a b : List GoTestJsonRowData) (t : GoTestJsonRowData) (ht : t.Test ≠ "")
    (hb : ∀ r ∈ b, r.Test = "") (hrun : processRows env st0 (a ++ t :: b) = .ok st) :
    st.packageName = t.Test := by
  rw [processRows_append] at hrun
  cases ha : processRows env st0 a with
  | error f => simp [ha] at hrun
  | ok sa =>
    simp only [ha, processRows] at hrun
    cases hrow : processRow env sa t with
    | error f => simp [hrow] at hrun
    | ok s1 =>
      simp only [hrow] at hrun
      rw [processRows_packageName_of_no_test env b s1 st hb hrun,
        processRow_packageName env sa s1 t hrow]
      simp [ht]

theorem recordPackage_terminal (st : LoopState) (e : GoTestJsonRowData)
    (ha : e.Action = "fail" ∨ e.Action = "pass" ∨ e.Action = "skip") :
    mapGet (recordPackage st e).packageDetailsIdx st.packageName = some
      { Name := st.packageName
        ElapsedTime := f64div e.Elapsed (ofInt 60)
        Status := e.Action
        FailedTests := st.failedTests
        PassedTests := st.passedTests
        SkippedTests := st.skippedTests } := by
  have h1 : ("fail" : String) ≠ "output" := by decide
  have h2 : ("pass" : String) ≠ "output" := by decide
  have h3 : ("skip" : String) ≠ "output" := by decide
  have hout : e.Action ≠ "output" := by
    rcases ha with h | h | h <;> rw [h] <;> assumption
  unfold recordPackage
  simp only [ha, if_true, hout, if_false]
  exact mapGet_mapSet_self _ _ _

/-- C2 (amended): let `e` be a package-level row (empty test) with action
`fail`, `pass` or `skip`, and `t` the most recent earlier row with a test
name, the rows `b` between them having none.  If the loop reaches `e`, then
right after `e` the summary stored under the current package `t.Test` has
status `e.Action`, elapsed time `e.Elapsed / 60` and, as counters, the
numbers of failed, passed and skipped subtest outcomes with a payload name
longer than one byte in all rows before `e`, whatever package they belong
to. -/
theorem package_summary_is_running_snapshot (env : Env) (g : Globals)
    (a b : List GoTestJsonRowData) (t e : GoTestJsonRowData) (st : LoopState)
    (ht : t.Test ≠ "") (hb : ∀ r ∈ b, r.Test = "") (he : e.Test = "")
    (ha : e.Action = "fail" ∨ e.Action = "pass" ∨ e.Action = "skip")
    (hrun : processRows env (LoopState.start g) (a ++ t :: b) = .ok st) :
    ∃ st1, processRows env (LoopState.start g) ((a ++ t :: b) ++ [e]) = .ok st1 ∧
      mapGet st1.packageDetailsIdx t.Test = some
        { Name := t.Test
          ElapsedTime := f64div e.Elapsed (ofInt 60)
          Status := e.Action
          FailedTests := (a ++ t :: b).countP (isCounted env "failed")
          PassedTests := (a ++ t :: b).countP (isCounted env "passed")
          SkippedTests := (a ++ t :: b).countP (isCounted env "skipped") } := by
  have hname := processRows_packageName_after_test env (LoopState.start g) st a b t ht hb hrun
  obtain ⟨c1, c2, c3⟩ := processRows_counters env (a ++ t :: b) (LoopState.start g) st hrun
  simp only [LoopState.start, Nat.zero_add] at c1 c2 c3
  refine ⟨recordPackage st e, ?_, ?_⟩
  · rw [processRows_append, hrun]
    simp [processRows, processRow_of_test_empty env st e he]
  · rw [← hname, ← c1, ← c2, ← c3]
    exact recordPackage_terminal st e ha

set_option maxRecDepth 100000 in
/-- Witness of C2 (amended): after two passed subtests under `TestA` and one failed
subtest under `TestB`, the pass of the package stores for `TestB` a summary
whose counters are 1 failed and 2 passed. -/
theorem package_summary_is_running_snapshot_witness :
    (∃ st1, processRows (sampleEnv []) (LoopState.start Globals.initial)
        ((rowsTwoPackages.take 2 ++ sampleRow 0 "output" "TestB"
            (payloadText "failed" "Test3" "1000000000" ++ "\n") 0 :: []) ++ [rowPackagePass]) =
          .ok st1 ∧
      mapGet st1.packageDetailsIdx "TestB" = some
        { Name := "TestB"
          ElapsedTime := f64div rowPackagePass.Elapsed (ofInt 60)
          Status := "pass"
          FailedTests := (rowsTwoPackages.take 2 ++ sampleRow 0 "output" "TestB"
            (payloadText "failed" "Test3" "1000000000" ++ "\n") 0 :: []).countP
              (isCounted (sampleEnv []) "failed")
          PassedTests := (rowsTwoPackages.take 2 ++ sampleRow 0 "output" "TestB"
            (payloadText "failed" "Test3" "1000000000" ++ "\n") 0 :: []).countP
              (isCounted (sampleEnv []) "passed")
          SkippedTests := (rowsTwoPackages.take 2 ++ sampleRow 0 "output" "TestB"
            (payloadText "failed" "Test3" "1000000000" ++ "\n") 0 :: []).countP
              (isCounted (sampleEnv []) "skipped") }) ∧
      rowsTwoPackages.countP (isCounted (sampleEnv []) "failed") = 1 ∧
      rowsTwoPackages.countP (isCounted (sampleEnv []) "passed") = 2 ∧
      rowsTwoPackages.countP (isCounted (sampleEnv []) "skipped") = 0 :=
  ⟨package_summary_is_running_snapshot (sampleEnv []) Globals.initial
      (rowsTwoPackages.take 2) []
      (sampleRow 0 "output" "TestB" (payloadText "failed" "Test3" "1000000000" ++ "\n") 0)
      rowPackagePass
      (valueOr (LoopState.start Globals.initial)
        (processRows (sampleEnv []) (LoopState.start Globals.initial) rowsTwoPackages))
      (by decide) (by simp) (by decide) (by decide) (by rfl),
    by decide, by decide, by decide⟩

set_option maxRecDepth 100000 in
/-- Counterexample to C2 as worded: one passed subtest named `a` under
`TestA` is a subtest outcome with a non-empty name and a recognized state,
yet the pass of the package that follows stores for `TestA` a summary whose
`PassedTests` is 0. -/
theorem snapshot_misses_one_byte_name :
    (processRows (sampleEnv []) (LoopState.start Globals.initial)
        (rowsOneByteName ++ [rowPackagePass])).toOption.map
          (fun st => mapGet st.packageDetailsIdx "TestA") =
        some (some ⟨"TestA", f64div (ofInt 5) (ofInt 60), "pass", 0, 0, 0⟩) ∧
      rowsOneByteName.countP (isCountedAsWorded (sampleEnv []) "passed") = 1 ∧
      rowsOneByteName.countP (isCounted (sampleEnv []) "passed") = 0 := by
  decide

/-- C7: on the empty sequence `ProcessTestData` fails, the read of the last
time stamp being out of range; on a sequence with at least one row both
time-stamp reads succeed, so that `ProcessTestData` returns a summary as soon
as its loop completes. -/
theorem empty_input_fails_and_time_reads_succeed (env : Env) (g : Globals)
    (rowData : List GoTestJsonRowData) :
    (rowData = [] → ProcessTestData env g rowData = .error .indexOutOfRange) ∧
      (rowData ≠ [] →
        (∃ last, index rowData ((rowData.length : Int) - 1) = .ok last) ∧
        (∃ first, index rowData 0 = .ok first) ∧
        (∃ text, totalTestTime rowData = .ok text) ∧
        ∀ st, processRows env (LoopState.start g) rowData = .ok st →
          ∃ p, ProcessTestData env g rowData = .ok p) := by
  constructor
  · intro h
    subst h
    simp [ProcessTestData, processRows, totalTestTime, index]
  · intro h
    refine ⟨index_last_of_ne_nil rowData h, index_zero_of_ne_nil rowData h,
      totalTestTime_of_ne_nil rowData h, fun st hst => ?_⟩
    obtain ⟨text, first, hp⟩ := ProcessTestData_of_processRows env g rowData st h hst
    exact ⟨_, hp⟩

set_option maxRecDepth 100000 in
/-- Witness of C7: the empty sequence fails, and on the run of two packages
the time-stamp reads succeed and a summary is returned. -/
theorem empty_input_fails_and_time_reads_succeed_witness :
    ProcessTestData (sampleEnv []) Globals.initial [] = .error .indexOutOfRange ∧
      (∃ text, totalTestTime rowsTwoPackages = .ok text) ∧
      (∃ p, ProcessTestData (sampleEnv []) Globals.initial rowsTwoPackages = .ok p) :=
  ⟨(empty_input_fails_and_time_reads_succeed (sampleEnv []) Globals.initial []).1 rfl,
    ((empty_input_fails_and_time_reads_succeed (sampleEnv []) Globals.initial
      rowsTwoPackages).2 (by decide)).2.2.1,
    ((empty_input_fails_and_time_reads_succeed (sampleEnv []) Globals.initial
      rowsTwoPackages).2 (by decide)).2.2.2
      (valueOr (LoopState.start Globals.initial)
        (processRows (sampleEnv []) (LoopState.start Globals.initial) rowsTwoPackages))
      (by rfl)⟩

set_option maxRecDepth 100000 in
/-- C3, evaluated on a failing input: once the package of `TestA` has passed
after sixty seconds its summary holds one minute and the status `pass`; the
package-level output row that follows leaves a summary with elapsed time
zero and an empty status. -/
theorem output_row_resets_elapsed_and_status :
    (processRows (sampleEnv []) (LoopState.start Globals.initial)
        (rowsOutputAfterPass.take 2)).toOption.map
          (fun st => mapGet st.packageDetailsIdx "TestA") =
        some (some ⟨"TestA", ofInt 1, "pass", 0, 0, 0⟩) ∧
      (processRows (sampleEnv []) (LoopState.start Globals.initial)
        rowsOutputAfterPass).toOption.map
          (fun st => mapGet st.packageDetailsIdx "TestA") =
        some (some ⟨"TestA", ⟨0, 0⟩, "", 0, 0, 0⟩) := by
  decide

set_option maxRecDepth 100000 in
/-- C4, evaluated on a failing input: the payload `cd` of the test `TestAb`
and the payload `bcd` of the test `TestA` are stored under the same key, so
that after both rows the only record is the one of `(TestA, bcd)` and the
record of `(TestAb, cd)` is gone. -/
theorem records_of_two_pairs_overwrite :
    (processRows (sampleEnv []) (LoopState.start Globals.initial)
        (rowsSameConcatenation.take 1)).toOption.map (fun st => st.testCasesIdx) =
        some [("TestAbcd",
          ⟨"TestAb", "cd", f64div (ofInt 1000000000) (ofInt 60000000000), "passed"⟩)] ∧
      (processRows (sampleEnv []) (LoopState.start Globals.initial)
        rowsSameConcatenation).toOption.map (fun st => st.testCasesIdx) =
        some [("TestAbcd",
          ⟨"TestA", "bcd", f64div (ofInt 1000000000) (ofInt 60000000000), "failed"⟩)] := by
  decide

set_option maxRecDepth 100000 in
/-- C5, evaluated on a failing input: the same log line naming the test
`TestA` yields one overview when it is read from a file and no overview at
all when it is read from standard input. -/
theorem stdin_rows_yield_no_overview :
    ((ReadLogsFromFile (sampleEnv linesOneTest) Globals.initial "log.json").toOption.bind
        (fun p => (ProcessTestData (sampleEnv linesOneTest) p.2 p.1).toOption.map
          (fun q => q.1.TestSummary))) = some [⟨TestDetails.zero, []⟩] ∧
      ((ReadLogsFromStdIn (sampleEnv linesOneTest) Globals.initial).toOption.bind
        (fun p => (ProcessTestData (sampleEnv linesOneTest) p.2 p.1).toOption.map
          (fun q => q.1.TestSummary))) = some [] ∧
      (ReadLogsFromStdIn (sampleEnv linesOneTest) Globals.initial).toOption.map
        (fun p => p.1.map (fun r => r.Test)) = some ["TestA"] := by
  decide

set_option maxRecDepth 100000 in
/-- C6, evaluated on a failing input: for time stamps 61 seconds apart the
total test time is printed as `1m:0s`, while `m = trunc (d / 60)` and
`s = trunc (d - 60 * m)` are 1 and 1. -/
theorem sixty_one_seconds_print_as_one_minute :
    (ProcessTestData (sampleEnv []) Globals.initial rowsSixtyOneSeconds).toOption.map
        (fun p => p.1.TotalTestTime) = some "1m:0s" ∧
      minutesSecondsAsWorded (Sub 61000000000 0) = (1, 1) := by
  decide

set_option maxRecDepth 100000 in
/-- C10, evaluated on a failing input: a test row whose output contains `OS`
and no slash makes `ProcessTestData` fail with an index out of range. -/
theorem os_without_slash_is_out_of_range :
    failureOf (ProcessTestData (sampleEnv []) Globals.initial rowsOSWithoutSlash) =
      some .indexOutOfRange := by
  decide

/-! ## Properties of the renderer -/

theorem readsInRange_zero_iff (l : List TestOverview) :
    readsInRange l 0 = true ↔ ∀ k (h : k < l.length), k < (l[k]).TestCases.length := by
  rw [readsInRange_iff]
  simp only [Nat.zero_add]

theorem report_reads_out_of_range_before_empty_overview (env : Env) (g : Globals)
    (totalTestTime testDate : String) (failedTests passedTests skippedTests : Nat)
    (pre post : List TestOverview) (pt : TestOverview)
    (packageDetailsIdx : List (String × PackageDetails))
    (hpk : packageDetailsIdx ≠ []) (hpre : ∀ q ∈ pre, q.TestCases ≠ [])
    (hshort : ¬ (∀ k (h : k < pre.length), k < (pre[k]).TestCases.length)) :
    GenerateHTMLReport env g totalTestTime testDate failedTests passedTests skippedTests
      (pre ++ pt :: post) packageDetailsIdx = .error .indexOutOfRange := by
  cases packageDetailsIdx with
  | nil => exact absurd rfl hpk
  | cons kv rest =>
    apply GenerateHTMLReport_of_renderTests_error
    apply renderTests_out_of_range env kv.2 pre (pt :: post) 0 "" hpre
    cases hr : readsInRange pre 0 with
    | false => rfl
    | true => exact absurd ((readsInRange_zero_iff pre).1 hr) hshort

/-- C8 (amended): take a summary with at least one package summary whose
overview list holds an overview without test cases, `pt` being the first
such, every overview at a position `k` before it having more than `k` test
cases.  Then `GenerateHTMLReport` stops with the integrity error
`Test run failed, Exiting..` and writes no document. -/
theorem report_fails_on_empty_overview (env : Env) (g : Globals)
    (totalTestTime testDate : String) (failedTests passedTests skippedTests : Nat)
    (pre post : List TestOverview) (pt : TestOverview)
    (packageDetailsIdx : List (String × PackageDetails))
    (hpk : packageDetailsIdx ≠ []) (hpre : ∀ q ∈ pre, q.TestCases ≠ [])
    (hpt : pt.TestCases = [])
    (hin : ∀ k (h : k < pre.length), k < (pre[k]).TestCases.length) :
    GenerateHTMLReport env g totalTestTime testDate failedTests passedTests skippedTests
      (pre ++ pt :: post) packageDetailsIdx = .error .testRunFailed := by
  cases packageDetailsIdx with
  | nil => exact absurd rfl hpk
  | cons kv rest =>
    apply GenerateHTMLReport_of_renderTests_error
    obtain ⟨acc1, h1⟩ := renderTests_append env kv.2 pre (pt :: post) 0 "" hpre
      ((readsInRange_zero_iff pre).2 hin)
    rw [h1]
    exact renderTests_empty_overview env kv.2 pt post _ acc1 hpt

/-- Witness of C8 (amended): with the summary of `TestA`, an overview
without test cases that follows an overview with one test case stops the
report with the integrity error. -/
theorem report_fails_on_empty_overview_witness :
    GenerateHTMLReport (sampleEnv []) Globals.initial "0.000000 s" "" 0 1 0
      ([⟨TestDetails.zero, [recordOfTestA "Test1"]⟩] ++ overviewWithoutCases :: [])
      [summaryOfTestA] = .error .testRunFailed :=
  report_fails_on_empty_overview (sampleEnv []) Globals.initial "0.000000 s" "" 0 1 0
    [⟨TestDetails.zero, [recordOfTestA "Test1"]⟩] [] overviewWithoutCases [summaryOfTestA]
    (by decide) (by decide) rfl (by decide)

set_option maxRecDepth 100000 in
/-- Counterexample to C8 as worded: without any package summary the report
is written although its only overview has no test cases, as in the run on
a log file whose one line starts the test `TestA`; and with the summary of
`TestA`, an overview without test cases that follows two overviews with one
test case each stops the report with an index out of range, not with the
integrity error. -/
theorem report_is_written_without_package_summaries :
    (GenerateHTMLReport (sampleEnv []) Globals.initial "0.000000 s"
        "Thursday, 01-Jan-70 00:00:00 UTC" 0 0 0 [overviewWithoutCases] []).toOption =
      some ("k3s__results.html", "") ∧
      (RunE (sampleEnv linesOneTest) Globals.initial "log.json").toOption =
        some ("k3s__results.html", "") ∧
      failureOf (GenerateHTMLReport (sampleEnv []) Globals.initial "0.000000 s"
        "Thursday, 01-Jan-70 00:00:00 UTC" 0 1 0
        [⟨TestDetails.zero, [recordOfTestA "Test1"]⟩, ⟨TestDetails.zero, [recordOfTestA "Test2"]⟩,
          overviewWithoutCases] [summaryOfTestA]) = some .indexOutOfRange := by
  decide

/-- C9: for a summary with at least one package summary in which every
overview has a test case, `GenerateHTMLReport` reads `TestCases[k]` of the
overview at position `k`; it stays clear of an index out of range exactly
when every overview at position `k` has more than `k` test cases, and on two
overviews of which the second holds a single test case it fails with an
index out of range. -/
theorem overview_reads_in_range_iff (env : Env) (g : Globals)
    (totalTestTime testDate : String) (failedTests passedTests skippedTests : Nat)
    (testCasesIdx : List TestOverview) (packageDetailsIdx : List (String × PackageDetails))
    (hpk : packageDetailsIdx ≠ []) (hne : ∀ pt ∈ testCasesIdx, pt.TestCases ≠ []) :
    (GenerateHTMLReport env g totalTestTime testDate failedTests passedTests skippedTests
        testCasesIdx packageDetailsIdx ≠ .error .indexOutOfRange ↔
      ∀ k (h : k < testCasesIdx.length), k < (testCasesIdx[k]).TestCases.length) ∧
      (∀ first second : TestOverview, first.TestCases ≠ [] → second.TestCases.length = 1 →
        GenerateHTMLReport env g totalTestTime testDate failedTests passedTests skippedTests
          [first, second] packageDetailsIdx = .error .indexOutOfRange) := by
  cases packageDetailsIdx with
  | nil => exact absurd rfl hpk
  | cons kv rest =>
    constructor
    · constructor
      · intro h
        by_contra hnot
        apply h
        apply GenerateHTMLReport_of_renderTests_error
        have hr : readsInRange testCasesIdx 0 = false := by
          cases hr : readsInRange testCasesIdx 0 with
          | false => rfl
          | true => exact absurd ((readsInRange_zero_iff testCasesIdx).1 hr) hnot
        simpa using renderTests_out_of_range env kv.2 testCasesIdx [] 0 "" hne hr
      · intro h
        exact GenerateHTMLReport_in_range env g totalTestTime testDate failedTests passedTests
          skippedTests testCasesIdx (kv :: rest)
          (fun v => renderTests_ok env v testCasesIdx 0 "" hne ((readsInRange_zero_iff _).2 h))
    · intro first second h1 h2
      apply GenerateHTMLReport_of_renderTests_error
      have hne2 : ∀ pt ∈ [first, second], pt.TestCases ≠ [] := by
        intro pt hpt
        simp only [List.mem_cons, List.mem_singleton, List.not_mem_nil, or_false] at hpt
        rcases hpt with rfl | rfl
        · exact h1
        · intro h0
          simp [h0] at h2
      have hr : readsInRange [first, second] 0 = false := by
        simp [readsInRange, h2]
      simpa using renderTests_out_of_range env kv.2 [first, second] [] 0 "" hne2 hr

set_option maxRecDepth 100000 in
/-- Witness of C9: with the summary of `TestA`, a single overview with one
test case is rendered, and two overviews with one test case each fail with
an index out of range. -/
theorem overview_reads_in_range_iff_witness :
    GenerateHTMLReport (sampleEnv []) Globals.initial "0.000000 s" "" 0 1 0
        [⟨TestDetails.zero, [recordOfTestA "Test1"]⟩] [summaryOfTestA] ≠
          .error .indexOutOfRange ∧
      GenerateHTMLReport (sampleEnv []) Globals.initial "0.000000 s" "" 0 1 0
        [⟨TestDetails.zero, [recordOfTestA "Test1"]⟩, ⟨TestDetails.zero, [recordOfTestA "Test2"]⟩]
        [summaryOfTestA] = .error .indexOutOfRange :=
  ⟨(overview_reads_in_range_iff (sampleEnv []) Globals.initial "0.000000 s" "" 0 1 0
      [⟨TestDetails.zero, [recordOfTestA "Test1"]⟩] [summaryOfTestA]
      (by decide) (by decide)).1.2 (by decide),
    (overview_reads_in_range_iff (sampleEnv []) Globals.initial "0.000000 s" "" 0 1 0
      [⟨TestDetails.zero, [recordOfTestA "Test1"]⟩] [summaryOfTestA]
      (by decide) (by decide)).2
      ⟨TestDetails.zero, [recordOfTestA "Test1"]⟩ ⟨TestDetails.zero, [recordOfTestA "Test2"]⟩
      (by decide) (by decide)⟩

/-! ## When the aggregator returns -/

theorem splitFrom_length_pos (sep s : List Char) (skip : Nat) (cur : List Char) :
    1 ≤ (splitFrom sep s skip cur).length := by
  induction s generalizing skip cur with
  | nil => simp [splitFrom]
  | cons c s ih =>
    cases skip with
    | succ n => simpa [splitFrom] using ih n cur
    | zero =>
      simp only [splitFrom]
      split_ifs
      · simp
      · exact ih 0 _

theorem splitFrom_slash_length (s cur : List Char) :
    2 ≤ (splitFrom ['/'] s 0 cur).length ↔ occursIn ['/'] s = true := by
  induction s generalizing cur with
  | nil => simp [splitFrom, occursIn, matchesAt]
  | cons c s ih =>
    by_cases h : '/' = c
    · have hpos := splitFrom_length_pos ['/'] s 0 []
      subst h
      have h1 : splitFrom ['/'] ('/' :: s) 0 cur = ⟨cur.reverse⟩ :: splitFrom ['/'] s 0 [] := by
        simp [splitFrom, matchesAt]
      have h2 : occursIn ['/'] ('/' :: s) = true := by
        simp [occursIn, matchesAt]
      rw [h1, h2, List.length_cons]
      simp only [iff_true]
      omega
    · have h1 : splitFrom ['/'] (c :: s) 0 cur = splitFrom ['/'] s 0 (c :: cur) := by
        simp [splitFrom, matchesAt, h]
      have h2 : occursIn ['/'] (c :: s) = occursIn ['/'] s := by
        simp [occursIn, matchesAt, h]
      rw [h1, h2]
      exact ih (c :: cur)

theorem index_one_of_split_slash (s : String) :
    (Contains s "/" = true → ∃ piece, index (Split s "/") 1 = .ok piece) ∧
      (Contains s "/" = false → index (Split s "/") 1 = .error .indexOutOfRange) := by
  have hsep : ("/" : String).data = ['/'] := rfl
  have hsplit : Split s "/" = splitFrom ['/'] s.data 0 [] := by
    simp [Split, hsep]
  have hcont : Contains s "/" = occursIn ['/'] s.data := by
    simp [Contains, hsep]
  have hidx := index_natCast (Split s "/") 1
  simp only [Nat.cast_one] at hidx
  rw [hidx, hcont, hsplit]
  constructor
  · intro h
    have h2 := (splitFrom_slash_length s.data []).2 h
    exact ⟨_, dif_pos (by omega)⟩
  · intro h
    have h2 : ¬ 2 ≤ (splitFrom ['/'] s.data 0 []).length := by
      rw [splitFrom_slash_length, h]
      simp
    exact dif_neg (by omega)

theorem captureOS_error_iff (r : GoTestJsonRowData) (OS : String) (f : Failure) :
    captureOS r OS = .error f ↔
      f = .indexOutOfRange ∧ Contains r.Output "OS" = true ∧ Contains r.Output "/" = false := by
  unfold captureOS
  by_cases hos : Contains r.Output "OS" = true
  · simp only [hos, if_true, true_and]
    cases hsl : Contains r.Output "/" with
    | true =>
      obtain ⟨piece, hp⟩ := (index_one_of_split_slash r.Output).1 hsl
      simp [hp]
    | false =>
      rw [(index_one_of_split_slash r.Output).2 hsl]
      simp only [Except.error.injEq, and_true]
      exact eq_comm
  · simp [hos]

theorem processRow_error_iff (env : Env) (st : LoopState) (r : GoTestJsonRowData) (f : Failure) :
    processRow env st r = .error f ↔
      f = .indexOutOfRange ∧ r.Test ≠ "" ∧ Contains r.Output "OS" = true ∧
        Contains r.Output "/" = false := by
  by_cases ht : r.Test = ""
  · simp [processRow, ht]
  · unfold processRow
    simp only [ne_eq, ht, not_false_eq_true, if_true, true_and]
    cases hc : captureOS r st.OS with
    | error f1 =>
      have := (captureOS_error_iff r st.OS f1).1 hc
      simp only [Except.error.injEq]
      constructor
      · intro h
        subst h
        exact this
      · intro h
        rw [h.1, this.1]
    | ok os =>
      constructor
      · intro h
        cases h
      · rintro ⟨hf, h1, h2⟩
        have := (captureOS_error_iff r st.OS f).2 ⟨hf, h1, h2⟩
        rw [hc] at this
        cases this

theorem processRows_ok_iff (env : Env) (rows : List GoTestJsonRowData) (st : LoopState) :
    (∃ st1, processRows env st rows = .ok st1) ↔
      ∀ r ∈ rows, r.Test ≠ "" → Contains r.Output "OS" = true → Contains r.Output "/" = true := by
  induction rows generalizing st with
  | nil => simp [processRows]
  | cons r rest ih =>
    simp only [processRows, List.mem_cons, forall_eq_or_imp]
    cases hr : processRow env st r with
    | error f =>
      have h := (processRow_error_iff env st r f).1 hr
      constructor
      · rintro ⟨st1, h1⟩
        cases h1
      · rintro ⟨hall, _⟩
        have := hall h.2.1 h.2.2.1
        rw [h.2.2.2] at this
        cases this
    | ok st2 =>
      simp only [ih st2]
      constructor
      · intro h
        refine ⟨fun h1 h2 => ?_, h⟩
        cases hsl : Contains r.Output "/" with
        | true => rfl
        | false =>
          have := (processRow_error_iff env st r .indexOutOfRange).2 ⟨rfl, h1, h2, hsl⟩
          rw [hr] at this
          cases this
      · intro h
        exact h.2

/-- `ProcessTestData` returns a summary exactly on the non-empty sequences in
which every test row whose output contains `OS` also contains a slash. -/
theorem ProcessTestData_returns_iff (env : Env) (g : Globals)
    (rowData : List GoTestJsonRowData) :
    (∃ p, ProcessTestData env g rowData = .ok p) ↔
      rowData ≠ [] ∧ ∀ r ∈ rowData, r.Test ≠ "" → Contains r.Output "OS" = true →
        Contains r.Output "/" = true := by
  constructor
  · rintro ⟨⟨res, g1⟩, hp⟩
    obtain ⟨st, hst, _⟩ := processRows_of_ProcessTestData env g g1 rowData res hp
    refine ⟨?_, (processRows_ok_iff env rowData (LoopState.start g)).1 ⟨st, hst⟩⟩
    intro hnil
    subst hnil
    simp [ProcessTestData, processRows, totalTestTime, index] at hp
  · rintro ⟨hne, hall⟩
    obtain ⟨st, hst⟩ := (processRows_ok_iff env rowData (LoopState.start g)).2 hall
    obtain ⟨text, first, hp⟩ := ProcessTestData_of_processRows env g rowData st hne hst
    exact ⟨_, hp⟩

/-! ## The names recorded by the file reader -/

theorem keys_mapSet {V : Type} (m : List (String × V)) (k : String) (v : V) :
    (mapSet m k v).map Prod.fst =
      if k ∈ m.map Prod.fst then m.map Prod.fst else m.map Prod.fst ++ [k] := by
  induction m with
  | nil => simp [mapSet]
  | cons kv rest ih =>
    obtain ⟨k1, v1⟩ := kv
    by_cases h : k1 = k
    · subst h
      simp [mapSet]
    · have h2 : ¬ k = k1 := fun e => h e.symm
      by_cases hmem : k ∈ rest.map Prod.fst
      · simp only [mapSet, h, if_false, List.map_cons, ih, hmem, if_true, List.mem_cons, or_true]
      · simp only [mapSet, h, if_false, List.map_cons, ih, hmem, List.mem_cons, h2, or_self,
          List.cons_append]

theorem keys_mapSet_nodup {V : Type} (m : List (String × V)) (k : String) (v : V)
    (h : (m.map Prod.fst).Nodup) : ((mapSet m k v).map Prod.fst).Nodup := by
  rw [keys_mapSet]
  split_ifs with hmem
  · exact h
  · exact List.Nodup.append h (List.nodup_singleton k) (by simpa using hmem)

theorem mem_keys_mapSet {V : Type} (m : List (String × V)) (k : String) (v : V) (x : String) :
    x ∈ (mapSet m k v).map Prod.fst ↔ x = k ∨ x ∈ m.map Prod.fst := by
  rw [keys_mapSet]
  split_ifs with hmem
  · constructor
    · exact fun h => Or.inr h
    · rintro (h | h)
      · rw [h]; exact hmem
      · exact h
  · simp only [List.mem_append, List.mem_singleton]
    exact or_comm

theorem readFileRows_packages (env : Env) (lines : List String) (g g1 : Globals)
    (acc rows : List GoTestJsonRowData)
    (h : readFileRows env lines g acc = .ok (rows, g1)) :
    ∃ new, rows = acc ++ new ∧
      ((g.packages.map Prod.fst).Nodup → (g1.packages.map Prod.fst).Nodup) ∧
      ∀ k, k ∈ g1.packages.map Prod.fst ↔
        k ∈ g.packages.map Prod.fst ∨ (k ≠ "" ∧ ∃ r ∈ new, r.Test = k) := by
  induction lines generalizing g acc with
  | nil =>
    simp only [readFileRows, Except.ok.injEq, Prod.mk.injEq] at h
    obtain ⟨h1, h2⟩ := h
    subst h1 h2
    exact ⟨[], by simp, fun hn => hn, by simp⟩
  | cons line rest ih =>
    simp only [readFileRows] at h
    cases hrow : env.unmarshalRow line with
    | none => simp [hrow] at h
    | some row =>
      simp only [hrow] at h
      obtain ⟨new, hnew, hnd, hkeys⟩ := ih _ _ h
      refine ⟨row :: new, by simpa using hnew, ?_, ?_⟩
      · intro h0
        apply hnd
        by_cases ht : row.Test = ""
        · simpa [ht] using h0
        · simpa [ht] using keys_mapSet_nodup g.packages row.Test row.Action h0
      · intro k
        rw [hkeys k]
        by_cases ht : row.Test = ""
        · simp only [ne_eq, ht, not_true_eq_false, if_false, List.mem_cons, exists_eq_or_imp]
          constructor
          · rintro (h1 | ⟨h1, h2⟩)
            · exact Or.inl h1
            · exact Or.inr ⟨h1, Or.inr h2⟩
          · rintro (h1 | ⟨h1, h2 | h2⟩)
            · exact Or.inl h1
            · exact absurd h2.symm h1
            · exact Or.inr ⟨h1, h2⟩
        · simp only [ne_eq, ht, not_false_eq_true, if_true, mem_keys_mapSet, List.mem_cons,
            exists_eq_or_imp]
          constructor
          · rintro ((h1 | h1) | ⟨h1, h2⟩)
            · exact Or.inr ⟨by rw [h1]; exact ht, Or.inl h1.symm⟩
            · exact Or.inl h1
            · exact Or.inr ⟨h1, Or.inr h2⟩
          · rintro (h1 | ⟨h1, h2 | h2⟩)
            · exact Or.inl (Or.inr h1)
            · exact Or.inl (Or.inl h2.symm)
            · exact Or.inr ⟨h1, h2⟩

/-- On the file path the overviews are as the specification says: when the
rows come from `ReadLogsFromFile` at program start, the recorded names are
the distinct non-empty test names of the rows, and `ProcessTestData` builds
one overview per recorded name, holding the stored records of that package
name. -/
theorem file_rows_yield_one_overview_per_test (env : Env) (fileName : String)
    (rowData : List GoTestJsonRowData) (g1 g2 : Globals) (res : ProcessedTestdata)
    (hread : ReadLogsFromFile env Globals.initial fileName = .ok (rowData, g1))
    (hproc : ProcessTestData env g1 rowData = .ok (res, g2)) :
    (g1.packages.map Prod.fst).Nodup ∧
      (∀ k, k ∈ g1.packages.map Prod.fst ↔ k ≠ "" ∧ ∃ r ∈ rowData, r.Test = k) ∧
      ∃ st, processRows env (LoopState.start g1) rowData = .ok st ∧
        res.TestSummary = g1.packages.map (fun kv =>
          ⟨TestDetails.zero,
            (st.testCasesIdx.map Prod.snd).filter (fun t2 => t2.PackageName = kv.1)⟩) := by
  unfold ReadLogsFromFile at hread
  cases hopen : env.openFile fileName with
  | none => simp [hopen] at hread
  | some sc =>
    simp only [hopen] at hread
    cases hrows : readFileRows env sc.lines Globals.initial [] with
    | error f => simp [hrows] at hread
    | ok p =>
      obtain ⟨rows1, g3⟩ := p
      simp only [hrows] at hread
      have hp : rows1 = rowData ∧ g3 = g1 := by
        by_cases herr : sc.err = true
        · simp [herr] at hread
        · by_cases hclose : env.closeOk fileName = true
          · simpa [herr, hclose] using hread
          · simp [herr, hclose] at hread
      obtain ⟨e1, e2⟩ := hp
      subst e1 e2
      obtain ⟨new, hnew, hnd, hkeys⟩ := readFileRows_packages env sc.lines _ _ _ _ hrows
      simp only [List.nil_append] at hnew
      subst hnew
      obtain ⟨st, hst, _, _, _, hsum, _⟩ := processRows_of_ProcessTestData env _ g2 _ res hproc
      refine ⟨hnd (by simp [Globals.initial]), fun k => ?_, st, hst, ?_⟩
      · rw [hkeys k]
        simp [Globals.initial]
      · rw [hsum]
        rfl

/-! ## Further facts about the loop -/

theorem mapGet_mapSet_of_ne {V : Type} (m : List (String × V)) (k x : String) (v : V)
    (h : x ≠ k) : mapGet (mapSet m k v) x = mapGet m x := by
  induction m with
  | nil =>
    have h2 : ¬ k = x := fun e => h e.symm
    simp [mapSet, mapGet, h2]
  | cons kv rest ih =>
    obtain ⟨k1, v1⟩ := kv
    by_cases h1 : k1 = k
    · subst h1
      have h2 : ¬ k1 = x := fun e => h e.symm
      simp [mapSet, mapGet, h2]
    · by_cases h3 : k1 = x
      · subst h3
        simp [mapSet, mapGet, h1]
      · simp [mapSet, mapGet, h1, h3, ih]

/-- A package-level output row stores, under the current package, the elapsed
time and the status found under the empty key, and the running counters. -/
theorem recordPackage_output (st : LoopState) (e : GoTestJsonRowData)
    (he : e.Test = "") (ha : e.Action = "output") :
    mapGet (recordPackage st e).packageDetailsIdx st.packageName = some
      { Name := st.packageName
        ElapsedTime := ((mapGet st.packageDetailsIdx "").getD PackageDetails.zero).ElapsedTime
        Status := ((mapGet st.packageDetailsIdx "").getD PackageDetails.zero).Status
        FailedTests := st.failedTests
        PassedTests := st.passedTests
        SkippedTests := st.skippedTests } := by
  have h1 : ¬ ("output" : String) = "fail" := by decide
  have h2 : ¬ ("output" : String) = "pass" := by decide
  have h3 : ¬ ("output" : String) = "skip" := by decide
  unfold recordPackage
  simp only [ha, h1, h2, h3, or_self, if_false, if_true, he]
  exact mapGet_mapSet_self _ _ _

theorem recordTestCase_testCasesIdx (st : LoopState) (r : GoTestJsonRowData) (j : Output) :
    (recordTestCase st r j).testCasesIdx =
      if 1 < j.Name.utf8ByteSize ∧ (j.State = "failed" ∨ j.State = "passed" ∨ j.State = "skipped")
      then mapSet st.testCasesIdx (r.Test ++ j.Name)
        ⟨r.Test, j.Name, f64div j.Time (ofInt (1000 * 1000 * 1000 * 60)), j.State⟩
      else st.testCasesIdx := by
  unfold recordTestCase
  by_cases hn : 1 < j.Name.utf8ByteSize
  · by_cases hs : j.State = "failed" ∨ j.State = "passed" ∨ j.State = "skipped"
    · simp only [gt_iff_lt, hn, if_true, hs, and_self]
      split_ifs <;> rfl
    · simp only [gt_iff_lt, hn, if_true, hs, if_false, and_false]
      split_ifs <;> rfl
  · simp [hn]

theorem recordPackage_testCasesIdx (st : LoopState) (r : GoTestJsonRowData) :
    (recordPackage st r).testCasesIdx = st.testCasesIdx := by
  unfold recordPackage
  split_ifs <;> rfl

theorem processRow_testCasesIdx (env : Env) (st st1 : LoopState) (r : GoTestJsonRowData)
    (h : processRow env st r = .ok st1) :
    st1.testCasesIdx =
      if isRecognized env r = true
      then mapSet st.testCasesIdx (r.Test ++ (jsonMapOf env r).Name)
        ⟨r.Test, (jsonMapOf env r).Name,
          f64div (jsonMapOf env r).Time (ofInt (1000 * 1000 * 1000 * 60)), (jsonMapOf env r).State⟩
      else st.testCasesIdx := by
  by_cases ht : r.Test = ""
  · rw [processRow_of_test_empty env st r ht] at h
    cases h
    simp [isRecognized, ht, recordPackage_testCasesIdx]
  · unfold processRow at h
    simp only [ne_eq, ht, not_false_eq_true, if_true] at h
    cases hos : captureOS r st.OS with
    | error f => simp [hos] at h
    | ok os =>
      simp only [hos] at h
      cases h
      rw [recordTestCase_testCasesIdx]
      simp [isRecognized, ht]

/-- The test records form the last-write-wins map over the concatenation
`event.test ++ payload.name`: after the loop, the record stored under a key is
the one of the last recognized row whose test name followed by its payload
name spells that key. -/
theorem testCasesIdx_last_write_wins (env : Env) (rows : List GoTestJsonRowData)
    (st st1 : LoopState) (key : String) (h : processRows env st rows = .ok st1) :
    mapGet st1.testCasesIdx key =
      match rows.reverse.find? (fun r =>
        isRecognized env r && decide (r.Test ++ (jsonMapOf env r).Name = key)) with
      | some r => some ⟨r.Test, (jsonMapOf env r).Name,
          f64div (jsonMapOf env r).Time (ofInt (1000 * 1000 * 1000 * 60)), (jsonMapOf env r).State⟩
      | none => mapGet st.testCasesIdx key := by
  induction rows generalizing st with
  | nil =>
    simp only [processRows] at h
    cases h
    simp
  | cons r rest ih =>
    simp only [processRows] at h
    cases hr : processRow env st r with
    | error f => simp [hr] at h
    | ok st2 =>
      simp only [hr] at h
      rw [ih st2 h, List.reverse_cons, List.find?_append]
      cases hfind : rest.reverse.find? (fun r =>
          isRecognized env r && decide (r.Test ++ (jsonMapOf env r).Name = key)) with
      | some r1 => simp
      | none =>
        simp only [Option.none_or, List.find?_cons, List.find?_nil]
        rw [processRow_testCasesIdx env st st2 r hr]
        by_cases hrec : isRecognized env r = true
        · by_cases hk : r.Test ++ (jsonMapOf env r).Name = key
          · simp only [hrec, hk, decide_True, Bool.and_self, if_true]
            exact mapGet_mapSet_self _ _ _
          · have hk2 : key ≠ r.Test ++ (jsonMapOf env r).Name := fun e => hk e.symm
            simp only [hrec, hk, decide_False, Bool.and_false, if_true]
            exact mapGet_mapSet_of_ne _ _ _ _ hk2
        · simp [hrec]

set_option maxRecDepth 100000 in
/-- The examples of the specification that hold: a payload time of
120000000000 nanoseconds is 2.0 minutes; durations of 125 and of 125.9
seconds are printed as `2m:5s`, a duration of 45 seconds as `45.000000 s`. -/
theorem examples_of_the_specification :
    f64div (ofInt 120000000000) (ofInt (1000 * 1000 * 1000 * 60)) = ofInt 2 ∧
      totalTestTimeOf 125000000000 0 = "2m:5s" ∧
      totalTestTimeOf 125900000000 0 = "2m:5s" ∧
      totalTestTimeOf 45000000000 0 = "45.000000 s" := by
  decide

end GoTestHtmlReport
